import Mathlib

/-!
Verification development for the ANKR Interact bundle library
(`src/bundles/bundle-lib.ts`): pack / unpack / validate / sign / diff /
version-bump over `.ib` archives, shallowly embedded in Lean.

Modelling conventions:
* Byte buffers (`Buffer`) are `List Nat`; `BundleFile.content : Buffer | string`
  is modelled after the `bufferOf` coercion, i.e. directly as bytes.
* JavaScript objects used as string-keyed records (`Record<string, string>`,
  `zip.files`) are association lists with JS assignment semantics
  (`recordSet`: overwrite in place, append new keys; iteration order =
  insertion order, as for `Object.entries`).
* `crypto.createHash('sha256')` / `crypto.createHmac('sha256', key)` are
  modelled symbolically by the free constructors of `Digest`, i.e. as an
  idealized collision-free hash (constructor injectivity stands in for
  collision resistance); `digestBytes` is the injective analogue of the hex
  rendering of a digest (`.digest('hex')`), as fed to HMAC or embedded in
  serialized JSON.
* `JSON.stringify` over the manifest with its fixed key order (the zod schema
  order, which is also the order `packBundle` builds the literal in, and the
  order `zod.parse` reproduces) is modelled by the canonical injective
  encoders `encodeManifestCore` / `manifestJsonBytes`.
* Nondeterminism (the `new Date().toISOString()` clock and
  `crypto.randomUUID()`) is passed explicitly as `now` / `uuid` arguments.
* Fallible operations (`throw` in the source) return `Except BundleErr` or
  `Option`.
-/

set_option maxRecDepth 20000

namespace Ankr

/-- Byte sequences; the model of a Node `Buffer`. -/
abbrev Bytes := List Nat

/-- Symbolic digests: an idealized, collision-free model of the two hash
helpers of the source (`sha256 : Buffer|string → hex`, and
`hmac(data, key) = createHmac('sha256', key).update(data).digest('hex')`).
Constructor injectivity models collision resistance; equality of digests is
the model of equality of the hex digest strings. -/
inductive Digest where
  | sha256 (data : Bytes)
  | hmac (key : String) (data : Bytes)
deriving DecidableEq, Repr

/-- The bytes of a string (UTF code points; the model of a JS string's
serialized content). -/
def strBytes (s : String) : Bytes := s.data.map Char.toNat

/-- Length-prefix a byte block (canonical-serialization helper). -/
def lenPref (l : Bytes) : Bytes := l.length :: l

/-- Canonical encoding of a string field. -/
def encStr (s : String) : Bytes := lenPref (strBytes s)

/-- Canonical encoding of an optional string field (`undefined` keys are
dropped by `JSON.stringify`; absence is encoded by the `0` tag). -/
def encOptStr : Option String → Bytes
  | none => [0]
  | some s => 1 :: encStr s

/-- Canonical encoding of a string array. -/
def encStrList (l : List String) : Bytes :=
  l.length :: l.foldr (fun s acc => encStr s ++ acc) []

/-- Canonical encoding of an optional string array. -/
def encOptStrList : Option (List String) → Bytes
  | none => [0]
  | some l => 1 :: encStrList l

/-- Canonical encoding of an optional number. -/
def encOptNat : Option Nat → Bytes
  | none => [0]
  | some n => [1, n]

/-- The rendering of a digest as bytes: the injective analogue of the hex
digest string fed to `hmac` and embedded into the serialized manifest. -/
def digestBytes : Digest → Bytes
  | .sha256 b => 0 :: lenPref b
  | .hmac k d => 1 :: encStr k ++ lenPref d

/-- JS-object assignment `m[k] = v`: overwrite the first binding of `k` in
place, else append (this is `zip.file(path, data)` on a JSZip object and
`fileHashes[f.path] = …` on a `Record`). -/
def recordSet (m : List (String × α)) (k : String) (v : α) : List (String × α) :=
  match m with
  | [] => [(k, v)]
  | (k', v') :: rest => if k' = k then (k, v) :: rest else (k', v') :: recordSet rest k v

/-- JS-object lookup `m[k]` / `zip.file(k)` / `Map.get`. -/
def recordGet (m : List (String × α)) (k : String) : Option α :=
  match m with
  | [] => none
  | (k', v') :: rest => if k' = k then some v' else recordGet rest k

/-- Deduplication worker: drop keys already seen, keep first occurrences. -/
def dedupAux (seen : List String) : List String → List String
  | [] => []
  | k :: rest => if k ∈ seen then dedupAux seen rest else k :: dedupAux (k :: seen) rest

/-- `new Set([...a.keys(), ...b.keys()])`: union of key lists keeping first
occurrence / insertion order. -/
def dedupKeys (l : List String) : List String := dedupAux [] l

/-- `path.startsWith(pre)` of JS, on the model strings. -/
def strStartsWith (s pre : String) : Bool := pre.data.isPrefixOf s.data

/-- JS string truthiness of an optional string (`undefined` and `''` are
falsy). -/
def truthy : Option String → Bool
  | none => false
  | some s => s ≠ ""

/-- JS `a || b` for strings (`''` is falsy). -/
def jsOr (s d : String) : String := if s = "" then d else s

/-- JS `a || b` where `a` is an optional string. -/
def jsOrO (o : Option String) (d : String) : String :=
  match o with
  | some s => jsOr s d
  | none => d

-- ── Manifest data model (the zod schema of the source) ────────────────────────

/-- `BundleAuthorSchema`: `{ name, email?, url? }`. -/
structure BundleAuthor where
  name : String
  email : Option String
  url : Option String
deriving DecidableEq, Repr

/-- `BundleIntegritySchema`: `{ algorithm: 'sha256', files: Record<string,string>,
manifest_hash }`.  The `files` record maps paths to content digests. -/
structure BundleIntegrity where
  algorithm : String
  files : List (String × Digest)
  manifest_hash : Digest
deriving DecidableEq, Repr

/-- `BundleSignatureSchema`: `{ algorithm: 'hmac-sha256', value, signed_at }`. -/
structure BundleSignature where
  algorithm : String
  value : Digest
  signed_at : String
deriving DecidableEq, Repr

/-- The `contents` index of the manifest: per-category path lists.  The zod
schema marks each list optional; `packBundle` always populates all six, so the
model uses plain lists. -/
structure BundleContentsIndex where
  docs : List String
  assets : List String
  quizzes : List String
  flashcards : List String
  courses : List String
  canvas : List String
deriving DecidableEq, Repr

/-- `BundleManifestSchema`, field for field in schema order. -/
structure BundleManifest where
  spec : String
  id : String
  name : String
  slug : String
  version : String
  description : String
  author : BundleAuthor
  created_at : String
  updated_at : String
  language : String
  languages : Option (List String)
  subject : Option String
  level : Option String
  tags : Option (List String)
  access : String
  price : Option Nat
  currency : Option String
  license : String
  ankr_interact_version : String
  entry : Option String
  contents : BundleContentsIndex
  integrity : BundleIntegrity
  signature : Option BundleSignature
deriving DecidableEq, Repr

/-- A manifest with the `integrity.manifest_hash` and `signature` fields
excluded: the exact shape both `packBundle` and `validateBundle` feed to
`JSON.stringify` before hashing (`manifestForHashing` in the source; the
spread with `manifest_hash: undefined` / `signature: undefined` drops the keys
from the serialization). -/
structure ManifestCore where
  spec : String
  id : String
  name : String
  slug : String
  version : String
  description : String
  author : BundleAuthor
  created_at : String
  updated_at : String
  language : String
  languages : Option (List String)
  subject : Option String
  level : Option String
  tags : Option (List String)
  access : String
  price : Option Nat
  currency : Option String
  license : String
  ankr_interact_version : String
  entry : Option String
  contents : BundleContentsIndex
  integrityAlgorithm : String
  integrityFiles : List (String × Digest)
deriving DecidableEq, Repr

/-- Project a manifest onto its hashable core (`manifestForHashing` of
`validateBundle`: everything except `integrity.manifest_hash` and
`signature`). -/
def manifestForHashing (m : BundleManifest) : ManifestCore :=
  { spec := m.spec, id := m.id, name := m.name, slug := m.slug,
    version := m.version, description := m.description, author := m.author,
    created_at := m.created_at, updated_at := m.updated_at,
    language := m.language, languages := m.languages, subject := m.subject,
    level := m.level, tags := m.tags, access := m.access, price := m.price,
    currency := m.currency, license := m.license,
    ankr_interact_version := m.ankr_interact_version, entry := m.entry,
    contents := m.contents, integrityAlgorithm := m.integrity.algorithm,
    integrityFiles := m.integrity.files }

/-- Canonical encoding of an author record. -/
def encAuthor (a : BundleAuthor) : Bytes :=
  encStr a.name ++ encOptStr a.email ++ encOptStr a.url

/-- Canonical encoding of the contents index. -/
def encContents (c : BundleContentsIndex) : Bytes :=
  encStrList c.docs ++ encStrList c.assets ++ encStrList c.quizzes ++
  encStrList c.flashcards ++ encStrList c.courses ++ encStrList c.canvas

/-- Canonical encoding of the integrity `files` record. -/
def encFilesMap (fs : List (String × Digest)) : Bytes :=
  fs.length :: fs.foldr (fun pd acc => encStr pd.1 ++ lenPref (digestBytes pd.2) ++ acc) []

/-- The model of `JSON.stringify(manifestForHashing)`: a canonical serialization
of the manifest with the `manifest_hash` and `signature` keys excluded, over
the fixed schema key order (identical on the packing and the validating side,
since zod's parse reproduces the schema key order the packer builds the object
literal in). -/
def encodeManifestCore (c : ManifestCore) : Bytes :=
  encStr c.spec ++ encStr c.id ++ encStr c.name ++ encStr c.slug ++
  encStr c.version ++ encStr c.description ++ encAuthor c.author ++
  encStr c.created_at ++ encStr c.updated_at ++ encStr c.language ++
  encOptStrList c.languages ++ encOptStr c.subject ++ encOptStr c.level ++
  encOptStrList c.tags ++ encStr c.access ++ encOptNat c.price ++
  encOptStr c.currency ++ encStr c.license ++ encStr c.ankr_interact_version ++
  encOptStr c.entry ++ encContents c.contents ++ encStr c.integrityAlgorithm ++
  encFilesMap c.integrityFiles

/-- Canonical encoding of an optional signature block. -/
def encOptSignature : Option BundleSignature → Bytes
  | none => [0]
  | some s => 1 :: encStr s.algorithm ++ lenPref (digestBytes s.value) ++ encStr s.signed_at

/-- The model of `JSON.stringify(finalManifest, null, 2)`: the byte content of
the `manifest.json` archive entry for manifest `m`. -/
def manifestJsonBytes (m : BundleManifest) : Bytes :=
  encodeManifestCore (manifestForHashing m) ++
  lenPref (digestBytes m.integrity.manifest_hash) ++
  encOptSignature m.signature

-- ── Schema validation (the zod `BundleManifestSchema.parse`) ──────────────────

/-- `'0' ≤ c ≤ '9'` (the `\d` character class). -/
def isDigitChar (c : Char) : Bool := '0' ≤ c && c ≤ '9'

/-- The `[0-9a-f-]` character class of the id pattern. -/
def hexDashChar (c : Char) : Bool :=
  ('0' ≤ c && c ≤ '9') || ('a' ≤ c && c ≤ 'f') || c = '-'

/-- The id pattern `^bundle_[0-9a-f-]{36}$`. -/
def idPatternOk (s : String) : Bool :=
  "bundle_".data.isPrefixOf s.data &&
  (s.data.drop 7).length = 36 &&
  (s.data.drop 7).all hexDashChar

/-- The slug pattern `^[a-z0-9-]+$`. -/
def slugPatternOk (s : String) : Bool :=
  s.data ≠ [] && s.data.all (fun c => ('a' ≤ c && c ≤ 'z') || ('0' ≤ c && c ≤ '9') || c = '-')

/-- Split a string at the semver pattern `^(\d+)\.(\d+)\.(\d+)$`, returning the
three digit groups; `none` iff the string does not match. -/
def semverSplit (s : String) : Option (List Char × List Char × List Char) :=
  let cs := s.data
  let d1 := cs.takeWhile isDigitChar
  match cs.dropWhile isDigitChar with
  | '.' :: r1 =>
    let d2 := r1.takeWhile isDigitChar
    match r1.dropWhile isDigitChar with
    | '.' :: r2 =>
      let d3 := r2.takeWhile isDigitChar
      if d1 ≠ [] ∧ d2 ≠ [] ∧ d3 ≠ [] ∧ r2.dropWhile isDigitChar = [] then
        some (d1, d2, d3)
      else none
    | _ => none
  | _ => none

/-- Whether a string matches the semver regex `^\d+\.\d+\.\d+$` (used both by
the manifest schema's `version` field and by `parseSemver`). -/
def semverMatches (s : String) : Bool := (semverSplit s).isSome

/-- Consume exactly `n` digits from the front of a character list, returning
the remainder. -/
def digitsN : Nat → List Char → Option (List Char)
  | 0, cs => some cs
  | _ + 1, [] => none
  | n + 1, c :: cs => if isDigitChar c then digitsN n cs else none

/-- Expect character `c` at the front. -/
def expectChar (c : Char) : List Char → Option (List Char)
  | [] => none
  | c' :: cs => if c' = c then some cs else none

/-- The tail of an ISO timestamp after the seconds: `Z` or `.digits Z`. -/
def isoTailOk : List Char → Bool
  | ['Z'] => true
  | '.' :: rest => rest.takeWhile isDigitChar ≠ [] && rest.dropWhile isDigitChar = ['Z']
  | _ => false

/-- Modelled from the spec: the ISO-8601 timestamp format check performed by
the schema validator (`z.string().datetime()`, a zod library routine not in
the sources): `YYYY-MM-DDTHH:MM:SS(.d+)?Z`. -/
def isIsoDatetime (s : String) : Bool :=
  match ((((((((((digitsN 4 s.data).bind (expectChar '-')).bind (digitsN 2)).bind
    (expectChar '-')).bind (digitsN 2)).bind (expectChar 'T')).bind (digitsN 2)).bind
    (expectChar ':')).bind (digitsN 2)).bind (expectChar ':')).bind (digitsN 2) with
  | some rest => isoTailOk rest
  | none => false

/-- Whether `BundleManifestSchema.parse` succeeds on a manifest record, field
by field in schema order.  The zod `.email()` / `.url()` format refinements of
the author block are library routines whose exact grammar is not pinned down
in the sources; the spec lists the format constraints it requires
(identifier, slug, semver, access enum, length caps, tag caps, ISO-8601
timestamps) and does not include them, so they are modelled as accepting
(spec §4.1).  `price: z.number().min(0)` holds trivially in the `Nat` model. -/
def manifestSchemaOk (m : BundleManifest) : Bool :=
  m.spec = "1.0" &&
  idPatternOk m.id &&
  (1 ≤ m.name.data.length && m.name.data.length ≤ 200) &&
  slugPatternOk m.slug &&
  semverMatches m.version &&
  m.description.data.length ≤ 2000 &&
  (1 ≤ m.author.name.data.length && m.author.name.data.length ≤ 200) &&
  isIsoDatetime m.created_at &&
  isIsoDatetime m.updated_at &&
  (2 ≤ m.language.data.length && m.language.data.length ≤ 10) &&
  (match m.tags with
   | none => true
   | some ts => ts.length ≤ 20 && ts.all (fun t => t.data.length ≤ 50)) &&
  (m.access = "public" || m.access = "free" || m.access = "premium" || m.access = "private") &&
  (match m.currency with
   | none => true
   | some c => c.data.length = 3) &&
  1 ≤ m.license.data.length &&
  m.integrity.algorithm = "sha256" &&
  (match m.signature with
   | none => true
   | some sg => sg.algorithm = "hmac-sha256" && isIsoDatetime sg.signed_at)

-- ── Semver utilities (`parseSemver` / `bumpVersion` / `compareSemver`) ────────

/-- `parseInt(ds, 10)` on a digit group. -/
def digitsVal (cs : List Char) : Nat :=
  cs.foldl (fun n c => n * 10 + (c.toNat - '0'.toNat)) 0

/-- `parseSemver`: match `^(\d+)\.(\d+)\.(\d+)$` and `parseInt` the three
groups; the source throws `Invalid semver` on a non-match, modelled as
`none`. -/
def parseSemver (version : String) : Option (Nat × Nat × Nat) :=
  match semverSplit version with
  | some (d1, d2, d3) => some (digitsVal d1, digitsVal d2, digitsVal d3)
  | none => none

/-- `BumpType = 'major' | 'minor' | 'patch'`. -/
inductive BumpType where
  | major
  | minor
  | patch
deriving DecidableEq, Repr

/-- `bumpVersion`: increment a semver string (propagates the `parseSemver`
failure as `none`). -/
def bumpVersion (version : String) (bump : BumpType) : Option String :=
  match parseSemver version with
  | none => none
  | some (major, minor, patch) =>
    match bump with
    | .major => some (Nat.repr (major + 1) ++ ".0.0")
    | .minor => some (Nat.repr major ++ "." ++ Nat.repr (minor + 1) ++ ".0")
    | .patch => some (Nat.repr major ++ "." ++ Nat.repr minor ++ "." ++ Nat.repr (patch + 1))

/-- `compareSemver`: lexicographic comparison of two semver strings, `-1|0|1`
(propagates the `parseSemver` failure of either argument as `none`). -/
def compareSemver (a b : String) : Option Int :=
  match parseSemver a, parseSemver b with
  | some (aMaj, aMin, aPat), some (bMaj, bMin, bPat) =>
    some (if aMaj ≠ bMaj then (if aMaj < bMaj then -1 else 1)
          else if aMin ≠ bMin then (if aMin < bMin then -1 else 1)
          else if aPat ≠ bPat then (if aPat < bPat then -1 else 1)
          else 0)
  | _, _ => none

-- ── `toSlug` ──────────────────────────────────────────────────────────────────

/-- The `[a-z0-9]` class kept by `toSlug`. -/
def isLowerDigit (c : Char) : Bool :=
  ('a' ≤ c && c ≤ 'z') || ('0' ≤ c && c ≤ '9')

/-- `replace(/[^a-z0-9]+/g, '-')`: each maximal run of non-matching characters
becomes a single dash. -/
def squashRuns : List Char → List Char
  | [] => []
  | c :: rest =>
    if isLowerDigit c then c :: squashRuns rest
    else '-' :: squashRuns (rest.dropWhile (fun d => !isLowerDigit d))
termination_by l => l.length
decreasing_by
  · simp only [List.length_cons]; omega
  · simp only [List.length_cons]
    exact Nat.lt_succ_of_le (List.dropWhile_suffix _).sublist.length_le

/-- `replace(/^-|-$/g, '')`: remove one leading and one trailing dash. -/
def dropEdgeDashes (cs : List Char) : List Char :=
  let cs1 := match cs with
    | '-' :: r => r
    | other => other
  match cs1.reverse with
  | '-' :: r => r.reverse
  | _ => cs1

/-- `toSlug`: lowercase, dash out non-alphanumeric runs, trim edge dashes. -/
def toSlug (name : String) : String :=
  String.mk (dropEdgeDashes (squashRuns (name.data.map Char.toLower)))

-- ── Archive model (JSZip container) ───────────────────────────────────────────

/-- The content of one zip entry.  Raw file bytes are `bytes`; the serialized
manifest written by `zip.file('manifest.json', JSON.stringify(finalManifest))`
is `mjson m` (its byte content is `manifestJsonBytes m`).  Entries that parse
as a manifest are exactly the `mjson` entries; a `bytes` entry at the manifest
path is treated as failing `JSON.parse`/schema parse. -/
inductive ZData where
  | bytes (b : Bytes)
  | mjson (m : BundleManifest)
deriving DecidableEq, Repr

/-- The byte content of a zip entry (`zipFile.async('nodebuffer')`). -/
def zdataBytes : ZData → Bytes
  | .bytes b => b
  | .mjson m => manifestJsonBytes m

/-- A `.ib` archive: the zip's entry record in insertion order (the model of
`zip.files`; JSZip directory entries do not arise here). -/
structure Archive where
  entries : List (String × ZData)
deriving DecidableEq, Repr

/-- `zip.file(path)` lookup on an archive. -/
def lookupA (a : Archive) (p : String) : Option ZData := recordGet a.entries p

-- ── Pack (`packBundle`) ───────────────────────────────────────────────────────

/-- `BundleFile`: a path plus content bytes (the `Buffer | string` content is
modelled after the `bufferOf` coercion; `mimeType` is never read). -/
structure BundleFile where
  path : String
  content : Bytes
deriving DecidableEq, Repr

/-- The draft manifest accepted by `packBundle`
(`Omit<BundleManifest, 'integrity'|'id'|'created_at'|'updated_at'|'spec'|'ankr_interact_version'> & (id optional)`;
a full manifest passed by `signBundle`/`bumpBundleVersion` is narrowed to this
shape, its extra fields being ignored by the packer). -/
structure ManifestDraft where
  id : Option String
  name : String
  slug : String
  version : String
  description : String
  author : BundleAuthor
  language : String
  languages : Option (List String)
  subject : Option String
  level : Option String
  tags : Option (List String)
  access : String
  price : Option Nat
  currency : Option String
  license : String
  entry : Option String
deriving DecidableEq, Repr

/-- `PackOptions`. -/
structure PackOptions where
  manifest : ManifestDraft
  files : List BundleFile
  signKey : Option String
  interactVersion : Option String
deriving DecidableEq, Repr

/-- The `fileHashes` record built by the packer's first loop:
`fileHashes[f.path] = sha256(buf)`. -/
def fileHashesOf (files : List BundleFile) : List (String × Digest) :=
  files.foldl (fun m f => recordSet m f.path (Digest.sha256 f.content)) []

/-- The zip file entries written by the packer's first loop:
`zip.file(f.path, buf)`. -/
def zipFilesOf (files : List BundleFile) : List (String × ZData) :=
  files.foldl (fun m f => recordSet m f.path (ZData.bytes f.content)) []

/-- The id chosen by the packer:
`opts.manifest.id ? bundle_${opts.manifest.id} : bundle_${randomUUID()}`
(JS truthiness: an empty-string id also falls back to a fresh uuid). -/
def packedId (draft : ManifestDraft) (uuid : String) : String :=
  match draft.id with
  | some s => if s = "" then "bundle_" ++ uuid else "bundle_" ++ s
  | none => "bundle_" ++ uuid

/-- The `manifestWithoutHash` object the packer assembles (with the
`manifest_hash` placeholder excluded, i.e. the hashable core). -/
def packManifestCore (opts : PackOptions) (now uuid : String) : ManifestCore :=
  { spec := "1.0",
    id := packedId opts.manifest uuid,
    name := opts.manifest.name,
    slug := jsOr opts.manifest.slug (toSlug opts.manifest.name),
    version := jsOr opts.manifest.version "1.0.0",
    description := jsOr opts.manifest.description "",
    author := opts.manifest.author,
    created_at := now,
    updated_at := now,
    language := jsOr opts.manifest.language "en",
    languages := opts.manifest.languages,
    subject := opts.manifest.subject,
    level := opts.manifest.level,
    tags := opts.manifest.tags,
    access := jsOr opts.manifest.access "public",
    price := opts.manifest.price,
    currency := opts.manifest.currency,
    license := jsOr opts.manifest.license "Apache-2.0",
    ankr_interact_version := jsOrO opts.interactVersion "1.0.0",
    entry := opts.manifest.entry,
    contents :=
      { docs := (opts.files.filter (fun f => strStartsWith f.path "docs/")).map (fun f => f.path),
        assets := (opts.files.filter (fun f => strStartsWith f.path "assets/")).map (fun f => f.path),
        quizzes := (opts.files.filter (fun f => strStartsWith f.path "quizzes/")).map (fun f => f.path),
        flashcards := (opts.files.filter (fun f => strStartsWith f.path "flashcards/")).map (fun f => f.path),
        courses := (opts.files.filter (fun f => strStartsWith f.path "courses/")).map (fun f => f.path),
        canvas := (opts.files.filter (fun f => strStartsWith f.path "canvas/")).map (fun f => f.path) },
    integrityAlgorithm := "sha256",
    integrityFiles := fileHashesOf opts.files }

/-- The `finalManifest` the packer serializes into `manifest.json`: the core
plus the freshly computed manifest hash and, when a (truthy) sign key is
supplied, the signature block `hmac(manifestHash, signKey)`. -/
def packedManifest (opts : PackOptions) (now uuid : String) : BundleManifest :=
  let c := packManifestCore opts now uuid
  let manifestHash := Digest.sha256 (encodeManifestCore c)
  { spec := c.spec, id := c.id, name := c.name, slug := c.slug,
    version := c.version, description := c.description, author := c.author,
    created_at := c.created_at, updated_at := c.updated_at,
    language := c.language, languages := c.languages, subject := c.subject,
    level := c.level, tags := c.tags, access := c.access, price := c.price,
    currency := c.currency, license := c.license,
    ankr_interact_version := c.ankr_interact_version, entry := c.entry,
    contents := c.contents,
    integrity := { algorithm := c.integrityAlgorithm,
                   files := c.integrityFiles,
                   manifest_hash := manifestHash },
    signature :=
      match opts.signKey with
      | some k => if k = "" then none
                  else some { algorithm := "hmac-sha256",
                              value := Digest.hmac k (digestBytes manifestHash),
                              signed_at := now }
      | none => none }

/-- `packBundle`: hash and store every input file, then store the serialized
manifest at the well-known path (overwriting any same-named input entry, as
`zip.file` does).  `now` is the `new Date().toISOString()` reading and `uuid`
the `crypto.randomUUID()` draw of the call. -/
def packBundle (opts : PackOptions) (now uuid : String) : Archive :=
  { entries := recordSet (zipFilesOf opts.files) "manifest.json"
      (ZData.mjson (packedManifest opts now uuid)) }

-- ── Unpack (`unpackBundle`) ───────────────────────────────────────────────────

/-- The error taxonomy of the throwing operations: `BUNDLE_INVALID` (missing
manifest entry), a `JSON.parse` failure, a zod `SCHEMA_VIOLATION`, and the
`Invalid semver` error of `parseSemver`. -/
inductive BundleErr where
  | bundleInvalid
  | jsonError
  | schemaViolation
  | semverInvalid
deriving DecidableEq, Repr

/-- `unpackBundle`: read and schema-validate the manifest, then list every
other entry as a file (pure structural read, no integrity checking). -/
def unpackBundle (a : Archive) : Except BundleErr (BundleManifest × List BundleFile) :=
  match lookupA a "manifest.json" with
  | none => .error .bundleInvalid
  | some (.bytes _) => .error .jsonError
  | some (.mjson m) =>
    if manifestSchemaOk m then
      .ok (m, (a.entries.filter (fun e => e.1 ≠ "manifest.json")).map
              (fun e => { path := e.1, content := zdataBytes e.2 }))
    else .error .schemaViolation

-- ── Validate (`validateBundle`) ───────────────────────────────────────────────

/-- The validator's error taxonomy, one constructor per pushed message:
`Missing manifest.json`, `Invalid manifest: …`, `Missing file: path`,
`Integrity failure: path (expected …, got …)` (the two digests model the two
hex prefixes of the message), `Manifest hash mismatch — …`, `Signature
verification failed`.  The `Not a valid ZIP file` branch cannot arise in this
model, where inputs are already-open archives. -/
inductive VErr where
  | missingManifestJson
  | invalidManifest
  | missingFile (path : String)
  | integrityFailure (path : String) (expected actual : Digest)
  | manifestHashMismatch
  | signatureInvalid
deriving DecidableEq, Repr

/-- The validator's warnings: `Bundle is signed but no verify key provided`
and `Entry point not found in bundle: …`.  The large-bundle size warning
concerns the compressed byte length of the container, which this model does
not represent; it never affects validity. -/
inductive VWarn where
  | signatureUnverified
  | entryMissing (path : String)
deriving DecidableEq, Repr

/-- `ValidationResult`. -/
structure ValidationResult where
  valid : Bool
  errors : List VErr
  warnings : List VWarn
  manifest : Option BundleManifest
deriving DecidableEq, Repr

/-- The file-integrity loop of `validateBundle`: for every entry of
`manifest.integrity.files` in record order, a missing archive entry records a
missing-file error, a digest mismatch records an integrity failure, and the
scan continues either way. -/
def integrityErrors (a : Archive) : List (String × Digest) → List VErr
  | [] => []
  | (p, expectedHash) :: rest =>
    match lookupA a p with
    | none => .missingFile p :: integrityErrors a rest
    | some e =>
      let actualHash := Digest.sha256 (zdataBytes e)
      if actualHash ≠ expectedHash then
        .integrityFailure p expectedHash actualHash :: integrityErrors a rest
      else integrityErrors a rest

/-- The manifest-hash recomputation of `validateBundle`: hash the parsed
manifest with the `manifest_hash` and `signature` fields excluded (the same
exclusion rule as the packer) and compare to the stored value. -/
def manifestHashErrs (m : BundleManifest) : List VErr :=
  if Digest.sha256 (encodeManifestCore (manifestForHashing m)) ≠ m.integrity.manifest_hash then
    [VErr.manifestHashMismatch]
  else []

/-- The signature check of `validateBundle`: run only when a (truthy) key was
supplied and a signature block is present (`if (signKey && manifest.signature)`). -/
def signatureErrs (signKey : Option String) (m : BundleManifest) : List VErr :=
  if truthy signKey ∧ m.signature.isSome then
    match signKey, m.signature with
    | some k, some sg =>
      if Digest.hmac k (digestBytes m.integrity.manifest_hash) ≠ sg.value then
        [VErr.signatureInvalid]
      else []
    | _, _ => []
  else []

/-- The signed-but-unverified warning branch
(`else if (manifest.signature && !signKey)`). -/
def sigWarns (signKey : Option String) (m : BundleManifest) : List VWarn :=
  if m.signature.isSome ∧ ¬ truthy signKey then [VWarn.signatureUnverified] else []

/-- The entry-point warning branch (`if (manifest.entry)`, JS-truthy). -/
def entryWarns (a : Archive) (m : BundleManifest) : List VWarn :=
  match m.entry with
  | some en =>
    if en ≠ "" then
      match lookupA a en with
      | none => [VWarn.entryMissing en]
      | some _ => []
    else []
  | none => []

/-- The body of `validateBundle` after the manifest has been found and parsed. -/
def validateParsed (a : Archive) (signKey : Option String) (m : BundleManifest) :
    ValidationResult :=
  if manifestSchemaOk m then
    let errors := integrityErrors a m.integrity.files ++ manifestHashErrs m ++
                  signatureErrs signKey m
    { valid := errors.isEmpty, errors := errors,
      warnings := sigWarns signKey m ++ entryWarns a m,
      manifest := if errors.isEmpty then some m else none }
  else { valid := false, errors := [.invalidManifest], warnings := [], manifest := none }

/-- `validateBundle`: manifest presence and schema, per-file integrity,
manifest-hash recomputation (same exclusion rule as the packer), optional
signature verification, advisory warnings; `valid := errors.length === 0`. -/
def validateBundle (a : Archive) (signKey : Option String) : ValidationResult :=
  match lookupA a "manifest.json" with
  | none => { valid := false, errors := [.missingManifestJson], warnings := [], manifest := none }
  | some (.bytes _) => { valid := false, errors := [.invalidManifest], warnings := [], manifest := none }
  | some (.mjson m) => validateParsed a signKey m

-- ── Sign (`signBundle`) and bump (`bumpBundleVersion`) ────────────────────────

/-- Narrow a full manifest to the draft shape `packBundle` reads (the
structural narrowing TypeScript performs when `signBundle` /
`bumpBundleVersion` pass a whole manifest as `PackOptions.manifest`; note the
id is forwarded as-is). -/
def draftOfManifest (m : BundleManifest) : ManifestDraft :=
  { id := some m.id, name := m.name, slug := m.slug, version := m.version,
    description := m.description, author := m.author, language := m.language,
    languages := m.languages, subject := m.subject, level := m.level,
    tags := m.tags, access := m.access, price := m.price,
    currency := m.currency, license := m.license, entry := m.entry }

/-- `signBundle`: unpack, derive `hmac(manifest_hash, signKey)`, and re-pack
with the same files and the sign key (the packer recomputes hashes and
re-derives the signature itself; the pre-attached signature block on the
draft is ignored by the packer). -/
def signBundle (a : Archive) (signKey : String) (now uuid : String) :
    Except BundleErr Archive :=
  match unpackBundle a with
  | .error e => .error e
  | .ok (manifest, files) =>
    let signedManifest := { manifest with
      updated_at := now,
      signature := some { algorithm := "hmac-sha256",
                          value := Digest.hmac signKey (digestBytes manifest.integrity.manifest_hash),
                          signed_at := now } }
    .ok (packBundle
      { manifest := draftOfManifest signedManifest, files := files,
        signKey := some signKey,
        interactVersion := some manifest.ankr_interact_version } now uuid)

/-- JS whitespace trim (`String.prototype.trim`), restricted to the blank
characters that can arise here. -/
def jsTrim (s : String) : String :=
  let ws := fun c => c = ' ' || c = '\n' || c = '\t' || c = '\r'
  String.mk (((s.data.dropWhile ws).reverse.dropWhile ws).reverse)

/-- `bumpBundleVersion`: unpack, bump the manifest version, optionally append
a changelog note to the description, and re-pack the same files.  The sign-key
forwarding is `signKey ?? (manifest.signature ? undefined : undefined)`, which
reduces to `signKey` — a missing key is never replaced even for a signed
input. -/
def bumpBundleVersion (a : Archive) (bump : BumpType) (changelog : Option String)
    (signKey : Option String) (now uuid : String) : Except BundleErr Archive :=
  match unpackBundle a with
  | .error e => .error e
  | .ok (manifest, files) =>
    match bumpVersion manifest.version bump with
    | none => .error .semverInvalid
    | some newVersion =>
      let newDescription :=
        match changelog with
        | some c =>
          if c = "" then manifest.description
          else jsTrim (manifest.description ++ "\n\n[v" ++ newVersion ++ "] " ++ c)
        | none => manifest.description
      let updatedManifest := { manifest with
        version := newVersion, description := newDescription }
      .ok (packBundle
        { manifest := draftOfManifest updatedManifest, files := files,
          signKey := signKey,
          interactVersion := some manifest.ankr_interact_version } now uuid)

-- ── Diff (`diffBundles`) ──────────────────────────────────────────────────────

/-- The per-path change kind of `BundleFileDiff`. -/
inductive FileChange where
  | added
  | removed
  | modified
  | unchanged
deriving DecidableEq, Repr

/-- `BundleFileDiff`. -/
structure BundleFileDiff where
  path : String
  change : FileChange
  oldHash : Option Digest
  newHash : Option Digest
deriving DecidableEq, Repr

/-- One entry of `BundleDiff.manifestChanges`: a field name with the canonical
serializations of the old and new values (`none` models an absent /
`undefined` field, whose `JSON.stringify` is `undefined`). -/
structure ManifestFieldChange where
  field : String
  fromVal : Option Bytes
  toVal : Option Bytes
deriving DecidableEq, Repr

/-- `BundleDiff`. -/
structure BundleDiff where
  fromVersion : String
  toVersion : String
  bumpLevel : BumpType
  added : Nat
  removed : Nat
  modified : Nat
  unchanged : Nat
  files : List BundleFileDiff
  manifestChanges : List ManifestFieldChange
deriving DecidableEq, Repr

/-- The top-level manifest field names in schema/insertion order
(`Object.keys` of a parsed manifest). -/
def manifestFieldNames : List String :=
  ["spec", "id", "name", "slug", "version", "description", "author",
   "created_at", "updated_at", "language", "languages", "subject", "level",
   "tags", "access", "price", "currency", "license", "ankr_interact_version",
   "entry", "contents", "integrity", "signature"]

/-- `JSON.stringify(manifest[field])` for each top-level field; `none` for an
absent optional field. -/
def manifestFieldVal (m : BundleManifest) (f : String) : Option Bytes :=
  if f = "spec" then some (encStr m.spec)
  else if f = "id" then some (encStr m.id)
  else if f = "name" then some (encStr m.name)
  else if f = "slug" then some (encStr m.slug)
  else if f = "version" then some (encStr m.version)
  else if f = "description" then some (encStr m.description)
  else if f = "author" then some (encAuthor m.author)
  else if f = "created_at" then some (encStr m.created_at)
  else if f = "updated_at" then some (encStr m.updated_at)
  else if f = "language" then some (encStr m.language)
  else if f = "languages" then m.languages.map encStrList
  else if f = "subject" then m.subject.map encStr
  else if f = "level" then m.level.map encStr
  else if f = "tags" then m.tags.map encStrList
  else if f = "access" then some (encStr m.access)
  else if f = "price" then m.price.map (fun n => [n])
  else if f = "currency" then m.currency.map encStr
  else if f = "license" then some (encStr m.license)
  else if f = "ankr_interact_version" then some (encStr m.ankr_interact_version)
  else if f = "entry" then m.entry.map encStr
  else if f = "contents" then some (encContents m.contents)
  else if f = "integrity" then
    some (encStr m.integrity.algorithm ++ encFilesMap m.integrity.files ++
          lenPref (digestBytes m.integrity.manifest_hash))
  else if f = "signature" then m.signature.map (fun s => encOptSignature (some s))
  else none

/-- `SKIP_FIELDS` of the manifest diff. -/
def skipFields : List String :=
  ["integrity", "signature", "updated_at", "created_at", "id"]

/-- A content-bearing path for bump-level inference: under `docs/`,
`quizzes/`, `flashcards/` or `courses/`. -/
def isContentPath (p : String) : Bool :=
  strStartsWith p "docs/" || strStartsWith p "quizzes/" ||
  strStartsWith p "flashcards/" || strStartsWith p "courses/"

/-- `diffBundles`: unpack both archives, diff the path→hash maps over the
union of paths, count changes, infer the bump level (removed content ⇒ major,
added/modified content ⇒ minor, else patch), and report changed manifest
fields outside `SKIP_FIELDS`. -/
def diffBundles (oldA newA : Archive) : Except BundleErr BundleDiff :=
  match unpackBundle oldA with
  | .error e => .error e
  | .ok (oldManifest, oldFiles) =>
    match unpackBundle newA with
    | .error e => .error e
    | .ok (newManifest, newFiles) =>
      let oldHashes := oldFiles.foldl (fun m f => recordSet m f.path (Digest.sha256 f.content)) []
      let newHashes := newFiles.foldl (fun m f => recordSet m f.path (Digest.sha256 f.content)) []
      let allPaths := dedupKeys ((oldHashes.map Prod.fst) ++ (newHashes.map Prod.fst))
      let files := allPaths.map (fun p =>
        match recordGet oldHashes p, recordGet newHashes p with
        | none, newHash => { path := p, change := FileChange.added,
                             oldHash := none, newHash := newHash }
        | some oldHash, none => { path := p, change := FileChange.removed,
                                  oldHash := some oldHash, newHash := none }
        | some oldHash, some newHash =>
          if oldHash ≠ newHash then
            { path := p, change := FileChange.modified,
              oldHash := some oldHash, newHash := some newHash }
          else
            { path := p, change := FileChange.unchanged,
              oldHash := some oldHash, newHash := some newHash })
      let bumpLevel :=
        if files.any (fun f => f.change = FileChange.removed && isContentPath f.path) then
          BumpType.major
        else if files.any (fun f =>
            (f.change = FileChange.added || f.change = FileChange.modified) &&
            isContentPath f.path) then
          BumpType.minor
        else BumpType.patch
      let allFields := manifestFieldNames.filter (fun f =>
        (manifestFieldVal oldManifest f).isSome || (manifestFieldVal newManifest f).isSome)
      let manifestChanges := allFields.filterMap (fun f =>
        if f ∈ skipFields then none
        else if manifestFieldVal oldManifest f ≠ manifestFieldVal newManifest f then
          some { field := f, fromVal := manifestFieldVal oldManifest f,
                 toVal := manifestFieldVal newManifest f }
        else none)
      .ok { fromVersion := oldManifest.version,
            toVersion := newManifest.version,
            bumpLevel := bumpLevel,
            added := (files.filter (fun f => f.change = FileChange.added)).length,
            removed := (files.filter (fun f => f.change = FileChange.removed)).length,
            modified := (files.filter (fun f => f.change = FileChange.modified)).length,
            unchanged := (files.filter (fun f => f.change = FileChange.unchanged)).length,
            files := files,
            manifestChanges := manifestChanges }

-- ── Tamper model ──────────────────────────────────────────────────────────────

/-- Replace the byte content of the archive entry at `p` (the model of
flipping bytes inside one packed file of a `.ib` container). -/
def replaceFile (a : Archive) (p : String) (b : Bytes) : Archive :=
  { entries := recordSet a.entries p (.bytes b) }

/-- The validator errors that name a path (missing-file and
integrity-failure errors). -/
def pathError : VErr → Bool
  | .missingFile _ => true
  | .integrityFailure _ _ _ => true
  | _ => false

/-! ## Auxiliary definitions, instances and concrete inputs -/

/-! ## Concrete inputs for witnesses and counterexamples -/

/-- A minimal valid manifest draft. -/
def draft0 : ManifestDraft :=
  { id := none, name := "b", slug := "b", version := "1.0.0", description := "",
    author := { name := "a", email := none, url := none }, language := "en",
    languages := none, subject := none, level := none, tags := none,
    access := "public", price := none, currency := none, license := "MIT",
    entry := none }

/-- A fixed clock reading. -/
def now0 : String := "2026-01-01T00:00:00.000Z"

/-- A fixed uuid draw. -/
def uuid0 : String := "00000000-0000-0000-0000-000000000000"

/-- The pack options of the end-to-end scenario of the spec
(`docs/ch1.md`, `flashcards/deck.json`, minimal valid draft, unsigned). -/
def packOpts0 : PackOptions :=
  { manifest := draft0,
    files := [{ path := "docs/ch1.md", content := [1, 2] },
              { path := "flashcards/deck.json", content := [3] }],
    signKey := none, interactVersion := none }

/-- Pack options whose file set contains a file at the reserved path
`manifest.json`. -/
def packOptsMj : PackOptions :=
  { manifest := draft0,
    files := [{ path := "manifest.json", content := [0] }],
    signKey := none, interactVersion := none }

/-- The per-entry check of the validator's integrity loop. -/
def integrityCheck (a : Archive) (pd : String × Digest) : Option VErr :=
  match lookupA a pd.1 with
  | none => some (.missingFile pd.1)
  | some e =>
    if Digest.sha256 (zdataBytes e) ≠ pd.2 then
      some (.integrityFailure pd.1 pd.2 (Digest.sha256 (zdataBytes e)))
    else none

/-- Pack options with a file at the reserved manifest path plus a normal
document. -/
def packOptsMj2 : PackOptions :=
  { manifest := draft0,
    files := [{ path := "manifest.json", content := [0] },
              { path := "docs/a.md", content := [1] }],
    signKey := none, interactVersion := none }

/-- The scenario bundle packed with signing key `K`. -/
def packOpts0S : PackOptions := { packOpts0 with signKey := some "K" }

/-- A draft that fails the schema (empty name). -/
def draftBad : ManifestDraft := { draft0 with name := "" }

/-- The bad draft packed with signing key `K`. -/
def packOptsBad : PackOptions :=
  { manifest := draftBad, files := packOpts0.files, signKey := some "K",
    interactVersion := none }

instance [DecidableEq ε] [DecidableEq α] : DecidableEq (Except ε α) := fun a b =>
  match a, b with
  | .ok x, .ok y =>
    if h : x = y then isTrue (by rw [h]) else isFalse (fun hh => h (Except.ok.inj hh))
  | .error x, .error y =>
    if h : x = y then isTrue (by rw [h]) else isFalse (fun hh => h (Except.error.inj hh))
  | .ok _, .error _ => isFalse (fun hh => Except.noConfusion hh)
  | .error _, .ok _ => isFalse (fun hh => Except.noConfusion hh)

/-- The diff of the scenario bundle against itself. -/
def diff00 : BundleDiff :=
  match diffBundles (packBundle packOpts0 now0 uuid0) (packBundle packOpts0 now0 uuid0) with
  | .ok dd => dd
  | .error _ =>
    { fromVersion := "", toVersion := "", bumpLevel := .patch, added := 0,
      removed := 0, modified := 0, unchanged := 0, files := [], manifestChanges := [] }

/-- The scenario bundle after `bumpBundleVersion(·, 'minor')`. -/
def bumped0 : Archive :=
  match bumpBundleVersion (packBundle packOpts0 now0 uuid0) BumpType.minor none none now0 uuid0 with
  | .ok b => b
  | .error _ => { entries := [] }

/-! ## Lemmas about JS-record operations -/

/-- The key list of a record, in iteration order. -/
def recordKeys (m : List (String × α)) : List String := m.map Prod.fst

theorem recordGet_recordSet_self (m : List (String × α)) (k : String) (v : α) :
    recordGet (recordSet m k v) k = some v := by
  induction m with
  | nil => simp [recordSet, recordGet]
  | cons e rest ih =>
    obtain ⟨k', v'⟩ := e
    by_cases h : k' = k
    · simp [recordSet, recordGet, h]
    · simp [recordSet, recordGet, h, ih]

theorem recordGet_recordSet_ne (m : List (String × α)) (k k' : String) (v : α)
    (h : k' ≠ k) : recordGet (recordSet m k v) k' = recordGet m k' := by
  induction m with
  | nil => simp [recordSet, recordGet, h.symm]
  | cons e rest ih =>
    obtain ⟨q, w⟩ := e
    by_cases hq : q = k
    · subst hq
      simp [recordSet, recordGet, h.symm]
    · simp [recordSet, recordGet, hq, ih]

theorem mem_recordKeys_recordSet (m : List (String × α)) (k p : String) (v : α) :
    p ∈ recordKeys (recordSet m k v) ↔ p = k ∨ p ∈ recordKeys m := by
  induction m with
  | nil => simp [recordSet, recordKeys]
  | cons e rest ih =>
    obtain ⟨q, w⟩ := e
    by_cases hq : q = k
    · subst hq
      simp [recordSet, recordKeys]
    · simp only [recordSet, if_neg hq, recordKeys, List.map_cons, List.mem_cons] at *
      rw [ih]
      tauto

theorem nodup_recordKeys_recordSet (m : List (String × α)) (k : String) (v : α)
    (h : (recordKeys m).Nodup) : (recordKeys (recordSet m k v)).Nodup := by
  induction m with
  | nil => simp [recordSet, recordKeys]
  | cons e rest ih =>
    obtain ⟨q, w⟩ := e
    simp only [recordKeys, List.map_cons, List.nodup_cons] at h
    by_cases hq : q = k
    · subst hq
      simpa [recordSet, recordKeys, List.nodup_cons] using h
    · simp only [recordSet, if_neg hq, recordKeys, List.map_cons, List.nodup_cons]
      refine ⟨fun hmem => ?_, ih h.2⟩
      rw [show (recordSet rest k v).map Prod.fst = recordKeys (recordSet rest k v) from rfl,
        mem_recordKeys_recordSet] at hmem
      rcases hmem with hqk | hmem
      · exact hq hqk
      · exact h.1 hmem

theorem recordGet_isSome_iff (m : List (String × α)) (p : String) :
    (recordGet m p).isSome = true ↔ p ∈ recordKeys m := by
  induction m with
  | nil => simp [recordGet, recordKeys]
  | cons e rest ih =>
    obtain ⟨q, w⟩ := e
    by_cases hq : q = p
    · subst hq
      simp [recordGet, recordKeys]
    · have hpq : p ≠ q := fun hh => hq hh.symm
      simp [recordGet, recordKeys, hq, hpq, ih]

theorem mem_of_recordGet_eq_some (m : List (String × α)) (p : String) (v : α)
    (h : recordGet m p = some v) : (p, v) ∈ m := by
  induction m with
  | nil => simp [recordGet] at h
  | cons e rest ih =>
    obtain ⟨q, w⟩ := e
    simp only [recordGet] at h
    split at h
    · next hq =>
      injection h with h2
      subst h2
      subst hq
      exact List.mem_cons_self _ _
    · exact List.mem_cons_of_mem _ (ih h)

theorem recordGet_eq_some_of_mem (m : List (String × α)) (p : String) (v : α)
    (hnd : (recordKeys m).Nodup) (h : (p, v) ∈ m) : recordGet m p = some v := by
  induction m with
  | nil => simp at h
  | cons e rest ih =>
    obtain ⟨q, w⟩ := e
    simp only [recordKeys, List.map_cons, List.nodup_cons] at hnd
    rcases List.mem_cons.mp h with hh | hh
    · injection hh with h1 h2
      subst h1
      subst h2
      simp [recordGet]
    · have hpk : p ∈ recordKeys rest := List.mem_map.mpr ⟨(p, v), hh, rfl⟩
      have hqp : ¬ q = p := fun hq => hnd.1 (by rw [hq]; exact hpk)
      simp only [recordGet, if_neg hqp]
      exact ih hnd.2 hh

theorem recordKeys_map (m : List (String × α)) (h : α → β) :
    recordKeys (m.map (fun e => (e.1, h e.2))) = recordKeys m := by
  induction m with
  | nil => rfl
  | cons e rest ih =>
    simp only [recordKeys, List.map_cons] at *
    rw [ih]

theorem recordSet_map (m : List (String × α)) (k : String) (v : α) (h : α → β) :
    recordSet (m.map (fun e => (e.1, h e.2))) k (h v) =
      (recordSet m k v).map (fun e => (e.1, h e.2)) := by
  induction m with
  | nil => rfl
  | cons e rest ih =>
    obtain ⟨q, w⟩ := e
    by_cases hq : q = k
    · simp [recordSet, hq]
    · simp [recordSet, hq, ih]

/-! ## Lemmas about the packer folds -/

theorem recordFold_mem_keys (g : BundleFile → α) (files : List BundleFile)
    (acc : List (String × α)) (p : String) :
    (p ∈ recordKeys (files.foldl (fun m f => recordSet m f.path (g f)) acc) ↔
      p ∈ recordKeys acc ∨ p ∈ files.map BundleFile.path) := by
  induction files generalizing acc with
  | nil => simp
  | cons f rest ih =>
    simp only [List.foldl_cons, List.map_cons, List.mem_cons]
    rw [ih, mem_recordKeys_recordSet]
    tauto

theorem recordFold_nodup (g : BundleFile → α) (files : List BundleFile)
    (acc : List (String × α)) (h : (recordKeys acc).Nodup) :
    (recordKeys (files.foldl (fun m f => recordSet m f.path (g f)) acc)).Nodup := by
  induction files generalizing acc with
  | nil => exact h
  | cons f rest ih => exact ih _ (nodup_recordKeys_recordSet _ _ _ h)

theorem recordFold_map (g : BundleFile → α) (h : α → β) (files : List BundleFile)
    (acc : List (String × α)) :
    files.foldl (fun m f => recordSet m f.path (h (g f))) (acc.map (fun e => (e.1, h e.2))) =
      (files.foldl (fun m f => recordSet m f.path (g f)) acc).map (fun e => (e.1, h e.2)) := by
  induction files generalizing acc with
  | nil => rfl
  | cons f rest ih =>
    simp only [List.foldl_cons]
    rw [recordSet_map]
    exact ih _

/-- The hash record the packer builds is the pointwise digest of the zip-entry
record it builds. -/
theorem fileHashesOf_eq_map (files : List BundleFile) :
    fileHashesOf files =
      (zipFilesOf files).map (fun e => (e.1, Digest.sha256 (zdataBytes e.2))) :=
  recordFold_map (fun f => ZData.bytes f.content)
    (fun z => Digest.sha256 (zdataBytes z)) files []

theorem zipFilesOf_mem_keys (files : List BundleFile) (p : String) :
    (p ∈ recordKeys (zipFilesOf files) ↔ p ∈ files.map BundleFile.path) := by
  rw [zipFilesOf, recordFold_mem_keys]
  simp [recordKeys]

theorem zipFilesOf_nodup (files : List BundleFile) :
    (recordKeys (zipFilesOf files)).Nodup :=
  recordFold_nodup _ _ _ (by simp [recordKeys])

theorem fileHashesOf_mem_keys (files : List BundleFile) (p : String) :
    (p ∈ recordKeys (fileHashesOf files) ↔ p ∈ files.map BundleFile.path) := by
  rw [fileHashesOf_eq_map,
    recordKeys_map (zipFilesOf files) (fun z => Digest.sha256 (zdataBytes z))]
  exact zipFilesOf_mem_keys files p

theorem fileHashesOf_nodup (files : List BundleFile) :
    (recordKeys (fileHashesOf files)).Nodup := by
  rw [fileHashesOf_eq_map,
    recordKeys_map (zipFilesOf files) (fun z => Digest.sha256 (zdataBytes z))]
  exact zipFilesOf_nodup files

theorem recordSet_append_fresh (m : List (String × α)) (k : String) (v : α)
    (h : k ∉ recordKeys m) : recordSet m k v = m ++ [(k, v)] := by
  induction m with
  | nil => rfl
  | cons e rest ih =>
    obtain ⟨q, w⟩ := e
    simp only [recordKeys, List.map_cons, List.mem_cons] at h
    push_neg at h
    have hqk : ¬ q = k := fun hh => h.1 hh.symm
    simp [recordSet, hqk, ih h.2]

theorem recordFold_eq_append (g : BundleFile → α) (files : List BundleFile) :
    ∀ (acc : List (String × α)), (files.map BundleFile.path).Nodup →
      (∀ f ∈ files, f.path ∉ recordKeys acc) →
      files.foldl (fun m f => recordSet m f.path (g f)) acc =
        acc ++ files.map (fun f => (f.path, g f)) := by
  induction files with
  | nil => intro acc _ _; simp
  | cons f rest ih =>
    intro acc hnd hdisj
    simp only [List.map_cons, List.nodup_cons] at hnd
    simp only [List.foldl_cons]
    rw [recordSet_append_fresh _ _ _ (hdisj f (List.mem_cons_self _ _))]
    rw [ih _ hnd.2]
    · simp
    · intro f' hf'
      simp only [recordKeys, List.map_append, List.mem_append]
      rintro (hin | hin)
      · exact hdisj f' (List.mem_cons_of_mem _ hf') hin
      · simp only [List.map_cons, List.map_nil, List.mem_singleton] at hin
        exact hnd.1 (hin ▸ List.mem_map.mpr ⟨f', hf', rfl⟩)

/-- With duplicate-free input paths, the packer's zip record is just the file
list itself. -/
theorem zipFilesOf_eq_map_of_nodup (files : List BundleFile)
    (hnd : (files.map BundleFile.path).Nodup) :
    zipFilesOf files = files.map (fun f => (f.path, ZData.bytes f.content)) := by
  rw [zipFilesOf, recordFold_eq_append _ _ _ hnd]
  · simp
  · intro f _
    simp [recordKeys]

/-! ## Lemmas about the integrity scan -/

theorem integrityErrors_eq_filterMap (a : Archive) (entries : List (String × Digest)) :
    integrityErrors a entries = entries.filterMap (integrityCheck a) := by
  induction entries with
  | nil => rfl
  | cons pd rest ih =>
    obtain ⟨p, hh⟩ := pd
    cases hl : lookupA a p with
    | none => simp [integrityErrors, List.filterMap_cons, integrityCheck, hl, ih]
    | some e =>
      by_cases hne : Digest.sha256 (zdataBytes e) = hh
      · simp [integrityErrors, List.filterMap_cons, integrityCheck, hl, hne, ih]
      · simp [integrityErrors, List.filterMap_cons, integrityCheck, hl, hne, ih]

theorem integrityErrors_nil (a : Archive) (entries : List (String × Digest))
    (h : ∀ pd ∈ entries, integrityCheck a pd = none) : integrityErrors a entries = [] := by
  rw [integrityErrors_eq_filterMap]
  exact List.filterMap_eq_nil_iff.mpr h

theorem mem_integrityErrors (a : Archive) (entries : List (String × Digest))
    (pd : String × Digest) (err : VErr) (hmem : pd ∈ entries)
    (hc : integrityCheck a pd = some err) : err ∈ integrityErrors a entries := by
  rw [integrityErrors_eq_filterMap]
  exact List.mem_filterMap.mpr ⟨pd, hmem, hc⟩

/-- Every error produced by the integrity loop names a path (it is a
missing-file or an integrity-failure error). -/
theorem integrityErrors_shape (a : Archive) (entries : List (String × Digest))
    (err : VErr) (h : err ∈ integrityErrors a entries) : pathError err = true := by
  rw [integrityErrors_eq_filterMap] at h
  obtain ⟨pd, _, hc⟩ := List.mem_filterMap.mp h
  unfold integrityCheck at hc
  split at hc
  · injection hc with hc
    subst hc
    rfl
  · split at hc
    · injection hc with hc
      subst hc
      rfl
    · exact absurd hc (by simp)

theorem filterMap_integrityCheck_singleton (a : Archive) (p : String) (hp : Digest)
    (err : VErr) :
    ∀ (entries : List (String × Digest)), (recordKeys entries).Nodup →
      (p, hp) ∈ entries → integrityCheck a (p, hp) = some err →
      (∀ q hq, (q, hq) ∈ entries → q ≠ p → integrityCheck a (q, hq) = none) →
      entries.filterMap (integrityCheck a) = [err] := by
  intro entries
  induction entries with
  | nil =>
    intro _ hmem _ _
    simp at hmem
  | cons e rest ih =>
    obtain ⟨q, hq⟩ := e
    intro hnd hmem hbad hgood
    simp only [recordKeys, List.map_cons, List.nodup_cons] at hnd
    by_cases hqp : q = p
    · subst hqp
      have hhq : hq = hp := by
        rcases List.mem_cons.mp hmem with hh | hh
        · exact ((Prod.ext_iff.mp hh).2).symm
        · exact absurd (List.mem_map.mpr ⟨(q, hp), hh, rfl⟩) hnd.1
      subst hhq
      simp only [List.filterMap_cons, hbad]
      have hrest : rest.filterMap (integrityCheck a) = [] := by
        apply List.filterMap_eq_nil_iff.mpr
        intro pd hpd
        obtain ⟨q2, hq2⟩ := pd
        apply hgood q2 hq2 (List.mem_cons_of_mem _ hpd)
        rintro rfl
        exact hnd.1 (List.mem_map.mpr ⟨(q2, hq2), hpd, rfl⟩)
      simp [hrest]
    · have hnone : integrityCheck a (q, hq) = none :=
        hgood q hq (List.mem_cons_self _ _) hqp
      have hmem' : (p, hp) ∈ rest := by
        rcases List.mem_cons.mp hmem with hh | hh
        · injection hh with h1 _
          exact absurd h1.symm hqp
        · exact hh
      simp only [List.filterMap_cons, hnone]
      exact ih hnd.2 hmem' hbad
        (fun q2 hq2 hm hne => hgood q2 hq2 (List.mem_cons_of_mem _ hm) hne)

/-! ## Lemmas about pack and validate -/

theorem lookupA_packBundle_self (opts : PackOptions) (now uuid : String) :
    lookupA (packBundle opts now uuid) "manifest.json" =
      some (ZData.mjson (packedManifest opts now uuid)) :=
  recordGet_recordSet_self _ _ _

theorem lookupA_packBundle_ne (opts : PackOptions) (now uuid p : String)
    (h : p ≠ "manifest.json") :
    lookupA (packBundle opts now uuid) p = recordGet (zipFilesOf opts.files) p :=
  recordGet_recordSet_ne _ _ _ _ h

theorem validateBundle_mjson (a : Archive) (k : Option String) (m : BundleManifest)
    (h : lookupA a "manifest.json" = some (.mjson m)) :
    validateBundle a k = validateParsed a k m := by
  unfold validateBundle
  rw [h]

/-- `valid` is the emptiness of the error list, in every branch of the
validator. -/
theorem validateBundle_valid_iff (a : Archive) (k : Option String) :
    ((validateBundle a k).valid = true ↔ (validateBundle a k).errors = []) := by
  unfold validateBundle
  cases lookupA a "manifest.json" with
  | none => simp
  | some z =>
    cases z with
    | bytes b => simp [validateParsed]
    | mjson m =>
      unfold validateParsed
      by_cases h : manifestSchemaOk m
      · simp [h, List.isEmpty_iff]
      · simp [h]

theorem manifestHashErrs_packed (opts : PackOptions) (now uuid : String) :
    manifestHashErrs (packedManifest opts now uuid) = [] := by
  unfold manifestHashErrs
  exact if_neg (fun hne => hne rfl)

theorem signatureErrs_packed (opts : PackOptions) (now uuid : String) (k : Option String)
    (hkey : k = none ∨ k = opts.signKey) :
    signatureErrs k (packedManifest opts now uuid) = [] := by
  rcases hkey with rfl | rfl
  · simp [signatureErrs, truthy]
  · unfold signatureErrs
    cases hk : opts.signKey with
    | none => simp [truthy]
    | some K =>
      by_cases hK : K = ""
      · subst hK
        simp [truthy]
      · have hsig : (packedManifest opts now uuid).signature =
            some { algorithm := "hmac-sha256",
                   value := Digest.hmac K
                     (digestBytes (packedManifest opts now uuid).integrity.manifest_hash),
                   signed_at := now } := by
          simp [packedManifest, hk, hK]
        rw [hsig]
        simp [truthy, hK]

/-- For a packed bundle with no input file at the reserved path, every entry
of the integrity record checks out against the archive. -/
theorem integrityCheck_packed_none (opts : PackOptions) (now uuid : String)
    (hpaths : ∀ f ∈ opts.files, f.path ≠ "manifest.json") :
    ∀ pd ∈ fileHashesOf opts.files, integrityCheck (packBundle opts now uuid) pd = none := by
  intro pd hpd
  rw [fileHashesOf_eq_map] at hpd
  obtain ⟨e, hmem, heq⟩ := List.mem_map.mp hpd
  obtain ⟨q, zd⟩ := e
  subst heq
  have hq_path : q ∈ opts.files.map BundleFile.path :=
    (zipFilesOf_mem_keys _ _).mp (List.mem_map.mpr ⟨(q, zd), hmem, rfl⟩)
  have hq_ne : q ≠ "manifest.json" := by
    obtain ⟨f, hf, hfp⟩ := List.mem_map.mp hq_path
    exact hfp ▸ hpaths f hf
  have hget : recordGet (zipFilesOf opts.files) q = some zd :=
    recordGet_eq_some_of_mem _ _ _ (zipFilesOf_nodup _) hmem
  have hlook : lookupA (packBundle opts now uuid) q = some zd := by
    rw [lookupA_packBundle_ne _ _ _ _ hq_ne]
    exact hget
  unfold integrityCheck
  rw [hlook]
  simp



/-! ## C1 -/

/-- C1, amended: for every file set **with no file at the reserved path
`manifest.json`** and every draft whose packed manifest is schema-valid,
`packBundle` followed by `validateBundle` — with no key, or with the packing
key — returns `valid = true` with zero errors, and the verifier's
recomputation of the manifest hash (over the manifest serialized with the
`manifest_hash` and `signature` fields excluded) equals the stored
`integrity.manifest_hash`. -/
theorem C1_pack_then_validate_ok (opts : PackOptions) (now uuid : String)
    (k : Option String)
    (hpaths : ∀ f ∈ opts.files, f.path ≠ "manifest.json")
    (hschema : manifestSchemaOk (packedManifest opts now uuid) = true)
    (hkey : k = none ∨ k = opts.signKey) :
    (validateBundle (packBundle opts now uuid) k).valid = true ∧
    (validateBundle (packBundle opts now uuid) k).errors = [] ∧
    Digest.sha256 (encodeManifestCore (manifestForHashing (packedManifest opts now uuid))) =
      (packedManifest opts now uuid).integrity.manifest_hash := by
  have hv : validateBundle (packBundle opts now uuid) k =
      validateParsed (packBundle opts now uuid) k (packedManifest opts now uuid) :=
    validateBundle_mjson _ _ _ (lookupA_packBundle_self opts now uuid)
  have hie : integrityErrors (packBundle opts now uuid)
      (packedManifest opts now uuid).integrity.files = [] :=
    integrityErrors_nil _ _ (integrityCheck_packed_none opts now uuid hpaths)
  have hmh := manifestHashErrs_packed opts now uuid
  have hse := signatureErrs_packed opts now uuid k hkey
  rw [hv]
  unfold validateParsed
  rw [if_pos hschema]
  refine ⟨?_, ?_, rfl⟩
  · simp [hie, hmh, hse]
  · simp [hie, hmh, hse]

/-- C1 witness: the spec's end-to-end scenario, proved through
`C1_pack_then_validate_ok` at concrete inputs. -/
theorem C1_witness :
    (validateBundle (packBundle packOpts0 now0 uuid0) none).valid = true ∧
    (validateBundle (packBundle packOpts0 now0 uuid0) none).errors = [] ∧
    Digest.sha256 (encodeManifestCore (manifestForHashing (packedManifest packOpts0 now0 uuid0))) =
      (packedManifest packOpts0 now0 uuid0).integrity.manifest_hash :=
  C1_pack_then_validate_ok packOpts0 now0 uuid0 none (by decide) (by decide) (Or.inl rfl)

/-- C1 counterexample to the claim as stated: for the file set containing a
file at the reserved path `manifest.json` (and a minimal valid draft), the
packer records the input file's hash in the integrity block but overwrites
the zip entry with the serialized manifest, so pack-then-validate reports an
integrity error and `valid = false`. -/
theorem C1_cex :
    manifestSchemaOk (packedManifest packOptsMj now0 uuid0) = true ∧
    (validateBundle (packBundle packOptsMj now0 uuid0) none).valid = false ∧
    (validateBundle (packBundle packOptsMj now0 uuid0) none).errors ≠ [] := by
  decide

/-! ## C2 -/

theorem lookupA_replaceFile_self (a : Archive) (p : String) (b : Bytes) :
    lookupA (replaceFile a p b) p = some (ZData.bytes b) :=
  recordGet_recordSet_self _ _ _

theorem lookupA_replaceFile_ne (a : Archive) (p q : String) (b : Bytes) (h : q ≠ p) :
    lookupA (replaceFile a p b) q = lookupA a q :=
  recordGet_recordSet_ne _ _ _ _ h

/-- Entries other than the tampered path still check out after the tamper. -/
theorem integrityCheck_replace_none (opts : PackOptions) (now uuid p : String)
    (newContent : Bytes) (hpaths : ∀ f ∈ opts.files, f.path ≠ "manifest.json") :
    ∀ q hq, (q, hq) ∈ fileHashesOf opts.files → q ≠ p →
      integrityCheck (replaceFile (packBundle opts now uuid) p newContent) (q, hq) = none := by
  intro q hq hmem hqp
  have hbase := integrityCheck_packed_none opts now uuid hpaths (q, hq) hmem
  unfold integrityCheck at *
  rw [show lookupA (replaceFile (packBundle opts now uuid) p newContent) q =
      lookupA (packBundle opts now uuid) q from lookupA_replaceFile_ne _ _ _ _ hqp]
  exact hbase

/-- C2, amended: for a bundle packed from a schema-valid draft **with no
input file at the reserved path `manifest.json`**, replacing the content of
exactly one packed file with different bytes makes validation report exactly
one path-naming error — the integrity failure for that path, carrying both
digests — and return `valid = false`; and in general every entry of an
integrity record is checked with no short-circuit: a missing file contributes
a missing-file error and a mismatch contributes an integrity error, whatever
errors precede them. -/
theorem C2_tamper_detection (opts : PackOptions) (now uuid p : String)
    (c newContent : Bytes) (a2 : Archive) (entries2 : List (String × Digest))
    (p2 : String) (h2 : Digest)
    (hpaths : ∀ f ∈ opts.files, f.path ≠ "manifest.json")
    (hschema : manifestSchemaOk (packedManifest opts now uuid) = true)
    (horig : recordGet (zipFilesOf opts.files) p = some (ZData.bytes c))
    (hdiff : newContent ≠ c)
    (hmem2 : (p2, h2) ∈ entries2) :
    ((validateBundle (replaceFile (packBundle opts now uuid) p newContent) none).errors.filter pathError =
       [VErr.integrityFailure p (Digest.sha256 c) (Digest.sha256 newContent)] ∧
     (validateBundle (replaceFile (packBundle opts now uuid) p newContent) none).valid = false) ∧
    ((lookupA a2 p2 = none → VErr.missingFile p2 ∈ integrityErrors a2 entries2) ∧
     (∀ e, lookupA a2 p2 = some e → Digest.sha256 (zdataBytes e) ≠ h2 →
        VErr.integrityFailure p2 h2 (Digest.sha256 (zdataBytes e)) ∈ integrityErrors a2 entries2)) := by
  constructor
  · -- the tamper scenario
    have hp_ne : p ≠ "manifest.json" := by
      have hp_path : p ∈ opts.files.map BundleFile.path := by
        rw [← zipFilesOf_mem_keys]
        exact (recordGet_isSome_iff _ _).mp (by rw [horig]; rfl)
      obtain ⟨f, hf, hfp⟩ := List.mem_map.mp hp_path
      exact hfp ▸ hpaths f hf
    have hlookm : lookupA (replaceFile (packBundle opts now uuid) p newContent) "manifest.json" =
        some (ZData.mjson (packedManifest opts now uuid)) := by
      rw [lookupA_replaceFile_ne _ _ _ _ (fun hh => hp_ne hh.symm)]
      exact lookupA_packBundle_self opts now uuid
    have hv := validateBundle_mjson _ none _ hlookm
    have hmemh : (p, Digest.sha256 c) ∈ fileHashesOf opts.files := by
      rw [fileHashesOf_eq_map]
      exact List.mem_map.mpr ⟨(p, ZData.bytes c), mem_of_recordGet_eq_some _ _ _ horig, rfl⟩
    have hbad : integrityCheck (replaceFile (packBundle opts now uuid) p newContent)
        (p, Digest.sha256 c) =
        some (VErr.integrityFailure p (Digest.sha256 c) (Digest.sha256 newContent)) := by
      unfold integrityCheck
      rw [lookupA_replaceFile_self]
      exact if_pos (by simp [zdataBytes, hdiff])
    have hie : integrityErrors (replaceFile (packBundle opts now uuid) p newContent)
        (packedManifest opts now uuid).integrity.files =
        [VErr.integrityFailure p (Digest.sha256 c) (Digest.sha256 newContent)] := by
      rw [integrityErrors_eq_filterMap]
      exact filterMap_integrityCheck_singleton _ _ _ _ _ (fileHashesOf_nodup _) hmemh hbad
        (integrityCheck_replace_none opts now uuid p newContent hpaths)
    have hmh := manifestHashErrs_packed opts now uuid
    have hse : signatureErrs none (packedManifest opts now uuid) = [] := by
      simp [signatureErrs, truthy]
    rw [hv]
    unfold validateParsed
    rw [if_pos hschema]
    constructor
    · simp [hie, hmh, hse, pathError]
    · simp [hie, hmh, hse]
  · -- the general no-short-circuit property of the integrity loop
    constructor
    · intro hnone
      apply mem_integrityErrors a2 entries2 (p2, h2) _ hmem2
      unfold integrityCheck
      rw [hnone]
    · intro e hsome hne
      apply mem_integrityErrors a2 entries2 (p2, h2) _ hmem2
      unfold integrityCheck
      rw [hsome]
      exact if_pos hne

/-- C2 witness: tampering `docs/ch1.md` of the packed scenario bundle, and the
loop property at a missing-path entry, through `C2_tamper_detection` at
concrete inputs. -/
theorem C2_witness :
    ((validateBundle (replaceFile (packBundle packOpts0 now0 uuid0) "docs/ch1.md" [9]) none).errors.filter pathError =
       [VErr.integrityFailure "docs/ch1.md" (Digest.sha256 [1, 2]) (Digest.sha256 [9])] ∧
     (validateBundle (replaceFile (packBundle packOpts0 now0 uuid0) "docs/ch1.md" [9]) none).valid = false) ∧
    ((lookupA (packBundle packOpts0 now0 uuid0) "missing.bin" = none →
        VErr.missingFile "missing.bin" ∈
          integrityErrors (packBundle packOpts0 now0 uuid0) [("missing.bin", Digest.sha256 [7])]) ∧
     (∀ e, lookupA (packBundle packOpts0 now0 uuid0) "missing.bin" = some e →
        Digest.sha256 (zdataBytes e) ≠ Digest.sha256 [7] →
        VErr.integrityFailure "missing.bin" (Digest.sha256 [7]) (Digest.sha256 (zdataBytes e)) ∈
          integrityErrors (packBundle packOpts0 now0 uuid0) [("missing.bin", Digest.sha256 [7])])) :=
  C2_tamper_detection packOpts0 now0 uuid0 "docs/ch1.md" [1, 2] [9]
    (packBundle packOpts0 now0 uuid0) [("missing.bin", Digest.sha256 [7])]
    "missing.bin" (Digest.sha256 [7])
    (by decide) (by decide) (by decide) (by decide) (by decide)


/-- C2 counterexample to the claim as stated: in a bundle packed from a file
set containing the reserved path `manifest.json`, replacing the content of
exactly one packed file (`docs/a.md`, packed content `[1]`, replaced by
`[2]`) yields **two** path-naming validation errors, so the tampered path is
not the only path flagged. -/
theorem C2_cex :
    recordGet (zipFilesOf packOptsMj2.files) "docs/a.md" = some (ZData.bytes [1]) ∧
    ([2] : Bytes) ≠ [1] ∧
    manifestSchemaOk (packedManifest packOptsMj2 now0 uuid0) = true ∧
    ((validateBundle (replaceFile (packBundle packOptsMj2 now0 uuid0) "docs/a.md" [2]) none).errors.filter pathError).length = 2 := by
  decide

/-! ## C3 -/

/-- The signature block a packer call with a non-empty key attaches. -/
theorem packedManifest_signature (opts : PackOptions) (now uuid K : String)
    (hsig : opts.signKey = some K) (hK : K ≠ "") :
    (packedManifest opts now uuid).signature =
      some { algorithm := "hmac-sha256",
             value := Digest.hmac K
               (digestBytes (packedManifest opts now uuid).integrity.manifest_hash),
             signed_at := now } := by
  simp [packedManifest, hsig, hK]

/-- Verifying with a different non-empty key fails the signature check. -/
theorem signatureErrs_packed_wrongkey (opts : PackOptions) (now uuid K Kother : String)
    (hsig : opts.signKey = some K) (hK : K ≠ "")
    (ho : Kother ≠ K) (ho2 : Kother ≠ "") :
    signatureErrs (some Kother) (packedManifest opts now uuid) = [VErr.signatureInvalid] := by
  unfold signatureErrs
  rw [packedManifest_signature opts now uuid K hsig hK]
  simp [truthy, ho2, ho]

/-- C3, amended: for every bundle packed with a non-empty signing key `K`
from a draft whose packed manifest is schema-valid: validating with key `K`
reports no signature error; validating with a different non-empty key reports
a signature-invalid error; validating with no key records a
signature-unverified warning, no signature error, and `valid = true` when no
other error occurs; and in general `valid` is true iff the error list is
empty (warnings never affect `valid`). -/
theorem C3_signing (opts : PackOptions) (now uuid K Kother : String)
    (a2 : Archive) (k2 : Option String)
    (hsig : opts.signKey = some K) (hK : K ≠ "")
    (hother : Kother ≠ K) (hother2 : Kother ≠ "")
    (hschema : manifestSchemaOk (packedManifest opts now uuid) = true) :
    VErr.signatureInvalid ∉ (validateBundle (packBundle opts now uuid) (some K)).errors ∧
    VErr.signatureInvalid ∈ (validateBundle (packBundle opts now uuid) (some Kother)).errors ∧
    (VWarn.signatureUnverified ∈ (validateBundle (packBundle opts now uuid) none).warnings ∧
     VErr.signatureInvalid ∉ (validateBundle (packBundle opts now uuid) none).errors ∧
     ((validateBundle (packBundle opts now uuid) none).errors = [] →
        (validateBundle (packBundle opts now uuid) none).valid = true)) ∧
    ((validateBundle a2 k2).valid = true ↔ (validateBundle a2 k2).errors = []) := by
  have hmh := manifestHashErrs_packed opts now uuid
  have hnosig : ∀ (l : List VErr) (hsub : ∀ err ∈ l, pathError err = true),
      VErr.signatureInvalid ∉ l := by
    intro l hsub hmem
    have := hsub _ hmem
    simp [pathError] at this
  refine ⟨?_, ?_, ⟨?_, ?_, ?_⟩, validateBundle_valid_iff a2 k2⟩
  · rw [validateBundle_mjson _ _ _ (lookupA_packBundle_self opts now uuid)]
    unfold validateParsed
    rw [if_pos hschema]
    have hse := signatureErrs_packed opts now uuid (some K) (Or.inr hsig.symm)
    simp only [hse, hmh, List.append_nil]
    exact hnosig _ (integrityErrors_shape _ _)
  · rw [validateBundle_mjson _ _ _ (lookupA_packBundle_self opts now uuid)]
    unfold validateParsed
    rw [if_pos hschema]
    have hse := signatureErrs_packed_wrongkey opts now uuid K Kother hsig hK hother hother2
    simp [hse, hmh]
  · rw [validateBundle_mjson _ _ _ (lookupA_packBundle_self opts now uuid)]
    unfold validateParsed
    rw [if_pos hschema]
    have hw : sigWarns none (packedManifest opts now uuid) = [VWarn.signatureUnverified] := by
      unfold sigWarns
      rw [if_pos]
      constructor
      · rw [packedManifest_signature opts now uuid K hsig hK]
        rfl
      · simp [truthy]
    simp [hw]
  · rw [validateBundle_mjson _ _ _ (lookupA_packBundle_self opts now uuid)]
    unfold validateParsed
    rw [if_pos hschema]
    have hse : signatureErrs none (packedManifest opts now uuid) = [] := by
      simp [signatureErrs, truthy]
    simp only [hse, hmh, List.append_nil]
    exact hnosig _ (integrityErrors_shape _ _)
  · intro he
    rw [(validateBundle_valid_iff _ _)]
    exact he


/-- C3 witness: the signed scenario bundle checked with the right key, a
wrong key and no key, through `C3_signing` at concrete inputs. -/
theorem C3_witness :
    VErr.signatureInvalid ∉ (validateBundle (packBundle packOpts0S now0 uuid0) (some "K")).errors ∧
    VErr.signatureInvalid ∈ (validateBundle (packBundle packOpts0S now0 uuid0) (some "J")).errors ∧
    (VWarn.signatureUnverified ∈ (validateBundle (packBundle packOpts0S now0 uuid0) none).warnings ∧
     VErr.signatureInvalid ∉ (validateBundle (packBundle packOpts0S now0 uuid0) none).errors ∧
     ((validateBundle (packBundle packOpts0S now0 uuid0) none).errors = [] →
        (validateBundle (packBundle packOpts0S now0 uuid0) none).valid = true)) ∧
    ((validateBundle (packBundle packOpts0S now0 uuid0) none).valid = true ↔
       (validateBundle (packBundle packOpts0S now0 uuid0) none).errors = []) :=
  C3_signing packOpts0S now0 uuid0 "K" "J" (packBundle packOpts0S now0 uuid0) none
    rfl (by decide) (by decide) (by decide) (by decide)



/-- C3 counterexample to the claim as stated: a bundle packed with signing
key `K` from a schema-invalid draft, validated with the different key `J`,
reports only the invalid-manifest error and **no** signature-invalid error —
the schema check short-circuits before the signature check. -/
theorem C3_cex :
    packOptsBad.signKey = some "K" ∧ ("J" : String) ≠ "K" ∧
    (validateBundle (packBundle packOptsBad now0 uuid0) (some "J")).errors = [VErr.invalidManifest] ∧
    VErr.signatureInvalid ∉ (validateBundle (packBundle packOptsBad now0 uuid0) (some "J")).errors := by
  decide

/-! ## C4 -/

/-- C4 (confirmed): for every pair of unpackable bundles, the diff's bump
level follows the precedence: any removed path under `docs/`, `quizzes/`,
`flashcards/` or `courses/` gives `major`; else any added or modified path
under one of those directories gives `minor`; else `patch`. -/
theorem C4_bump_inference (aOld aNew : Archive) (d : BundleDiff)
    (hd : diffBundles aOld aNew = .ok d) :
    d.bumpLevel =
      (if d.files.any (fun f => f.change = FileChange.removed &&
          (strStartsWith f.path "docs/" || strStartsWith f.path "quizzes/" ||
           strStartsWith f.path "flashcards/" || strStartsWith f.path "courses/")) then
        BumpType.major
      else if d.files.any (fun f =>
          (f.change = FileChange.added || f.change = FileChange.modified) &&
          (strStartsWith f.path "docs/" || strStartsWith f.path "quizzes/" ||
           strStartsWith f.path "flashcards/" || strStartsWith f.path "courses/")) then
        BumpType.minor
      else BumpType.patch) := by
  unfold diffBundles at hd
  cases h1 : unpackBundle aOld with
  | error e =>
    rw [h1] at hd
    exact absurd hd (by simp)
  | ok pr1 =>
    obtain ⟨om, ofs⟩ := pr1
    rw [h1] at hd
    cases h2 : unpackBundle aNew with
    | error e =>
      rw [h2] at hd
      exact absurd hd (by simp)
    | ok pr2 =>
      obtain ⟨nm, nfs⟩ := pr2
      rw [h2] at hd
      simp only [Except.ok.injEq] at hd
      subst hd
      rfl


/-- C4 witness: the self-diff of the scenario bundle, through
`C4_bump_inference` at concrete inputs. -/
theorem C4_witness :
    diffBundles (packBundle packOpts0 now0 uuid0) (packBundle packOpts0 now0 uuid0) =
      .ok diff00 ∧
    diff00.bumpLevel =
      (if diff00.files.any (fun f => f.change = FileChange.removed &&
          (strStartsWith f.path "docs/" || strStartsWith f.path "quizzes/" ||
           strStartsWith f.path "flashcards/" || strStartsWith f.path "courses/")) then
        BumpType.major
      else if diff00.files.any (fun f =>
          (f.change = FileChange.added || f.change = FileChange.modified) &&
          (strStartsWith f.path "docs/" || strStartsWith f.path "quizzes/" ||
           strStartsWith f.path "flashcards/" || strStartsWith f.path "courses/")) then
        BumpType.minor
      else BumpType.patch) :=
  ⟨by decide, C4_bump_inference (packBundle packOpts0 now0 uuid0)
    (packBundle packOpts0 now0 uuid0) diff00 (by decide)⟩

/-! ## C5 -/


/-- C5 evidence (code bug): bumping the validly packed scenario bundle by
`minor` does produce a manifest with the next minor version, but the re-pack
prefixes the id again (`bundle_bundle_…`), so the bumped archive fails schema
validation and `diffBundles(original, bumped)` raises instead of reporting
zero file-level changes. -/
theorem C5_bug_evidence :
    bumpBundleVersion (packBundle packOpts0 now0 uuid0) BumpType.minor none none now0 uuid0 =
      .ok bumped0 ∧
    (match lookupA bumped0 "manifest.json" with
      | some (.mjson m) =>
        decide (m.version = "1.1.0") &&
        decide (m.id = "bundle_bundle_00000000-0000-0000-0000-000000000000")
      | _ => false) = true ∧
    diffBundles (packBundle packOpts0 now0 uuid0) bumped0 = .error .schemaViolation ∧
    unpackBundle bumped0 = .error .schemaViolation := by
  decide

/-! ## C6 -/

theorem unpackBundle_mjson (a : Archive) (m : BundleManifest)
    (h : lookupA a "manifest.json" = some (.mjson m)) :
    unpackBundle a =
      if manifestSchemaOk m then
        .ok (m, (a.entries.filter (fun e => e.1 ≠ "manifest.json")).map
                (fun e => { path := e.1, content := zdataBytes e.2 }))
      else .error .schemaViolation := by
  unfold unpackBundle
  rw [h]

/-- C6, amended: for every list of files with distinct paths, **none at the
reserved path `manifest.json`**, and every draft whose packed manifest is
schema-valid, unpacking the packed bundle returns exactly the packed manifest
and the original file list (byte-identical contents), and the recomputed
digest of every input file equals the digest recorded for its path in the
integrity block. -/
theorem C6_roundtrip (opts : PackOptions) (now uuid : String)
    (hpaths : ∀ f ∈ opts.files, f.path ≠ "manifest.json")
    (hnodup : (opts.files.map BundleFile.path).Nodup)
    (hschema : manifestSchemaOk (packedManifest opts now uuid) = true) :
    unpackBundle (packBundle opts now uuid) =
      .ok (packedManifest opts now uuid, opts.files) ∧
    ∀ f ∈ opts.files, recordGet (packedManifest opts now uuid).integrity.files f.path =
      some (Digest.sha256 f.content) := by
  constructor
  · rw [unpackBundle_mjson _ _ (lookupA_packBundle_self opts now uuid), if_pos hschema]
    have hmj_not : "manifest.json" ∉ recordKeys (zipFilesOf opts.files) := by
      rw [zipFilesOf_mem_keys]
      intro hmem
      obtain ⟨f, hf, hfp⟩ := List.mem_map.mp hmem
      exact hpaths f hf hfp
    have hentries : (packBundle opts now uuid).entries =
        opts.files.map (fun f => (f.path, ZData.bytes f.content)) ++
          [("manifest.json", ZData.mjson (packedManifest opts now uuid))] := by
      show recordSet (zipFilesOf opts.files) "manifest.json" _ = _
      rw [recordSet_append_fresh _ _ _ hmj_not, zipFilesOf_eq_map_of_nodup _ hnodup]
    rw [hentries, List.filter_append]
    have hfilter1 : (opts.files.map (fun f => (f.path, ZData.bytes f.content))).filter
        (fun e => e.1 ≠ "manifest.json") =
        opts.files.map (fun f => (f.path, ZData.bytes f.content)) := by
      apply List.filter_eq_self.mpr
      intro e hmem
      obtain ⟨f, hf, hfe⟩ := List.mem_map.mp hmem
      simp [← hfe, hpaths f hf]
    have hfilter2 : ([("manifest.json", ZData.mjson (packedManifest opts now uuid))].filter
        (fun e => e.1 ≠ "manifest.json") : List (String × ZData)) = [] := by
      simp
    rw [hfilter1, hfilter2, List.append_nil, List.map_map]
    have hid : ((fun (e : String × ZData) =>
        ({ path := e.1, content := zdataBytes e.2 } : BundleFile)) ∘
        (fun f => (f.path, ZData.bytes f.content))) = id := by
      funext f
      rfl
    rw [hid, List.map_id]
  · intro f hf
    have hmem : (f.path, Digest.sha256 f.content) ∈ fileHashesOf opts.files := by
      rw [fileHashesOf_eq_map, zipFilesOf_eq_map_of_nodup _ hnodup, List.map_map]
      exact List.mem_map.mpr ⟨f, hf, rfl⟩
    exact recordGet_eq_some_of_mem _ _ _ (fileHashesOf_nodup _) hmem

/-- C6 witness: the spec's scenario bundle round-trips through
`C6_roundtrip` at concrete inputs. -/
theorem C6_witness :
    unpackBundle (packBundle packOpts0 now0 uuid0) =
      .ok (packedManifest packOpts0 now0 uuid0, packOpts0.files) ∧
    recordGet (packedManifest packOpts0 now0 uuid0).integrity.files "docs/ch1.md" =
      some (Digest.sha256 [1, 2]) :=
  ⟨(C6_roundtrip packOpts0 now0 uuid0 (by decide) (by decide) (by decide)).1,
   (C6_roundtrip packOpts0 now0 uuid0 (by decide) (by decide) (by decide)).2
     { path := "docs/ch1.md", content := [1, 2] } (by decide)⟩

/-- C6 counterexample to the claim as stated: a (distinct-path) file list
containing the reserved path `manifest.json` does not round-trip — the
packer overwrites the entry with the serialized manifest and the unpacker
skips that path, so the unpacked file list is empty. -/
theorem C6_cex :
    packOptsMj.files.map BundleFile.path = ["manifest.json"] ∧
    (packOptsMj.files.map BundleFile.path).Nodup ∧
    (unpackBundle (packBundle packOptsMj now0 uuid0)).toOption.map Prod.snd = some [] := by
  decide

/-! ## C7 -/

/-- C7 (confirmed): the concrete semver arithmetic results; the general bump
formulas under a successful parse (major to (M+1).0.0, minor to M.(N+1).0,
patch to M.N.(P+1)); the compare result; and hard failure (no partial
result) of `parseSemver`, `bumpVersion` and `compareSemver` on every string
not matching `MAJOR.MINOR.PATCH`. -/
theorem C7_semver (s t : String) (b : BumpType) (M N P : Nat) :
    (bumpVersion "1.2.3" BumpType.patch = some "1.2.4" ∧
     bumpVersion "1.2.3" BumpType.minor = some "1.3.0" ∧
     bumpVersion "1.2.3" BumpType.major = some "2.0.0" ∧
     compareSemver "1.0.0" "1.0.1" = some (-1)) ∧
    (parseSemver s = some (M, N, P) →
      (bumpVersion s BumpType.major = some (Nat.repr (M + 1) ++ ".0.0") ∧
       bumpVersion s BumpType.minor = some (Nat.repr M ++ "." ++ Nat.repr (N + 1) ++ ".0") ∧
       bumpVersion s BumpType.patch = some (Nat.repr M ++ "." ++ Nat.repr N ++ "." ++ Nat.repr (P + 1)))) ∧
    (semverMatches t = false →
      (parseSemver t = none ∧ bumpVersion t b = none ∧
       compareSemver t s = none ∧ compareSemver s t = none)) := by
  refine ⟨by decide, ?_, ?_⟩
  · intro hp
    unfold bumpVersion
    rw [hp]
    exact ⟨rfl, rfl, rfl⟩
  · intro hm
    have hp : parseSemver t = none := by
      unfold parseSemver
      unfold semverMatches at hm
      cases hsplit : semverSplit t with
      | none => rfl
      | some tr =>
        rw [hsplit] at hm
        simp at hm
    refine ⟨hp, ?_, ?_, ?_⟩
    · unfold bumpVersion
      rw [hp]
    · unfold compareSemver
      rw [hp]
    · unfold compareSemver
      cases hps : parseSemver s with
      | none => rfl
      | some pr =>
        obtain ⟨m1, m2, m3⟩ := pr
        rw [hp]

/-- C7 witness: the semver results at concrete inputs, through `C7_semver`
with both implications discharged. -/
theorem C7_witness :
    parseSemver "1.2.3" = some (1, 2, 3) ∧
    semverMatches "abc" = false ∧
    bumpVersion "1.2.3" BumpType.major = some (Nat.repr (1 + 1) ++ ".0.0") ∧
    parseSemver "abc" = none ∧
    bumpVersion "abc" BumpType.major = none ∧
    compareSemver "abc" "1.2.3" = none ∧
    compareSemver "1.2.3" "abc" = none :=
  ⟨by decide, by decide,
   ((C7_semver "1.2.3" "abc" BumpType.major 1 2 3).2.1 (by decide)).1,
   ((C7_semver "1.2.3" "abc" BumpType.major 1 2 3).2.2 (by decide)).1,
   ((C7_semver "1.2.3" "abc" BumpType.major 1 2 3).2.2 (by decide)).2.1,
   ((C7_semver "1.2.3" "abc" BumpType.major 1 2 3).2.2 (by decide)).2.2.1,
   ((C7_semver "1.2.3" "abc" BumpType.major 1 2 3).2.2 (by decide)).2.2.2⟩

/-! ## C8 -/

/-- C8, amended: in every archive `packBundle` produces **from a file set
with no file at the reserved path `manifest.json`**: every path listed in the
manifest's contents index has a file entry in the archive; the integrity
block's hash record has duplicate-free keys with an entry for exactly the
non-manifest archive paths and no entry for the manifest path. -/
theorem C8_pack_invariant (opts : PackOptions) (now uuid : String)
    (hpaths : ∀ f ∈ opts.files, f.path ≠ "manifest.json") :
    (∀ p, (p ∈ (packedManifest opts now uuid).contents.docs ∨
           p ∈ (packedManifest opts now uuid).contents.assets ∨
           p ∈ (packedManifest opts now uuid).contents.quizzes ∨
           p ∈ (packedManifest opts now uuid).contents.flashcards ∨
           p ∈ (packedManifest opts now uuid).contents.courses ∨
           p ∈ (packedManifest opts now uuid).contents.canvas) →
       (lookupA (packBundle opts now uuid) p).isSome = true) ∧
    (recordKeys (packedManifest opts now uuid).integrity.files).Nodup ∧
    (∀ p, p ≠ "manifest.json" →
       ((recordGet (packedManifest opts now uuid).integrity.files p).isSome = true ↔
        (lookupA (packBundle opts now uuid) p).isSome = true)) ∧
    recordGet (packedManifest opts now uuid).integrity.files "manifest.json" = none := by
  have hpath_some : ∀ p, p ∈ opts.files.map BundleFile.path →
      (lookupA (packBundle opts now uuid) p).isSome = true := by
    intro p hppath
    by_cases hp : p = "manifest.json"
    · subst hp
      rw [lookupA_packBundle_self]
      rfl
    · rw [lookupA_packBundle_ne _ _ _ _ hp,
        show recordGet (zipFilesOf opts.files) p = lookupA { entries := zipFilesOf opts.files } p from rfl]
      rw [show lookupA { entries := zipFilesOf opts.files } p = recordGet (zipFilesOf opts.files) p from rfl,
        recordGet_isSome_iff]
      exact (zipFilesOf_mem_keys _ _).mpr hppath
  have hcont : ∀ (g : BundleFile → Bool) p,
      p ∈ (opts.files.filter g).map (fun f => f.path) →
      p ∈ opts.files.map BundleFile.path := by
    intro g p hmem
    obtain ⟨f, hf, hfp⟩ := List.mem_map.mp hmem
    exact List.mem_map.mpr ⟨f, List.mem_of_mem_filter hf, hfp⟩
  refine ⟨?_, fileHashesOf_nodup _, ?_, ?_⟩
  · intro p hmem
    rcases hmem with h | h | h | h | h | h <;>
      exact hpath_some p (hcont _ p h)
  · intro p hp
    rw [lookupA_packBundle_ne _ _ _ _ hp]
    rw [show (packedManifest opts now uuid).integrity.files = fileHashesOf opts.files from rfl,
      recordGet_isSome_iff, recordGet_isSome_iff, fileHashesOf_mem_keys, zipFilesOf_mem_keys]
  · have hnot : "manifest.json" ∉ recordKeys (fileHashesOf opts.files) := by
      rw [fileHashesOf_mem_keys]
      intro hmem
      obtain ⟨f, hf, hfp⟩ := List.mem_map.mp hmem
      exact hpaths f hf hfp
    have : ¬ (recordGet (fileHashesOf opts.files) "manifest.json").isSome = true := by
      rw [recordGet_isSome_iff]
      exact hnot
    exact Option.not_isSome_iff_eq_none.mp this

/-- C8 witness: the invariant at the scenario bundle, through
`C8_pack_invariant` at concrete inputs. -/
theorem C8_witness :
    (lookupA (packBundle packOpts0 now0 uuid0) "docs/ch1.md").isSome = true ∧
    (recordKeys (packedManifest packOpts0 now0 uuid0).integrity.files).Nodup ∧
    ((recordGet (packedManifest packOpts0 now0 uuid0).integrity.files "docs/ch1.md").isSome = true ↔
      (lookupA (packBundle packOpts0 now0 uuid0) "docs/ch1.md").isSome = true) ∧
    recordGet (packedManifest packOpts0 now0 uuid0).integrity.files "manifest.json" = none :=
  ⟨(C8_pack_invariant packOpts0 now0 uuid0 (by decide)).1 "docs/ch1.md" (Or.inl (by decide)),
   (C8_pack_invariant packOpts0 now0 uuid0 (by decide)).2.1,
   (C8_pack_invariant packOpts0 now0 uuid0 (by decide)).2.2.1 "docs/ch1.md" (by decide),
   (C8_pack_invariant packOpts0 now0 uuid0 (by decide)).2.2.2⟩

/-- C8 counterexample to the claim as stated: packing a file set containing
the reserved path `manifest.json` records a hash entry for that path even
though the corresponding archive entry is the manifest itself, so the
integrity record does not cover exactly the non-manifest files. -/
theorem C8_cex :
    recordGet (packedManifest packOptsMj now0 uuid0).integrity.files "manifest.json" =
      some (Digest.sha256 [0]) ∧
    lookupA (packBundle packOptsMj now0 uuid0) "manifest.json" =
      some (ZData.mjson (packedManifest packOptsMj now0 uuid0)) := by
  decide

/-! ## C9 and C10: unpack inversion, schema extraction, id-pattern facts -/

theorem unpackBundle_ok_inv (a : Archive) (m : BundleManifest) (fs : List BundleFile)
    (h : unpackBundle a = .ok (m, fs)) :
    lookupA a "manifest.json" = some (.mjson m) ∧ manifestSchemaOk m = true := by
  unfold unpackBundle at h
  split at h
  · exact absurd h (by simp)
  · exact absurd h (by simp)
  · next m2 heq =>
    split at h
    · next hs =>
      simp only [Except.ok.injEq, Prod.mk.injEq] at h
      exact ⟨h.1 ▸ heq, h.1 ▸ hs⟩
    · exact absurd h (by simp)

theorem manifestSchemaOk_version (m : BundleManifest) (h : manifestSchemaOk m = true) :
    semverMatches m.version = true := by
  by_cases hv : semverMatches m.version = true
  · exact hv
  · rw [Bool.not_eq_true] at hv
    unfold manifestSchemaOk at h
    rw [hv] at h
    simp at h

theorem manifestSchemaOk_id (m : BundleManifest) (h : manifestSchemaOk m = true) :
    idPatternOk m.id = true := by
  by_cases hv : idPatternOk m.id = true
  · exact hv
  · rw [Bool.not_eq_true] at hv
    unfold manifestSchemaOk at h
    rw [hv] at h
    simp at h

theorem bumpVersion_isSome (s : String) (lvl : BumpType) (h : semverMatches s = true) :
    ∃ v, bumpVersion s lvl = some v := by
  unfold semverMatches at h
  cases hsp : semverSplit s with
  | none =>
    rw [hsp] at h
    simp at h
  | some tr =>
    obtain ⟨d1, d2, d3⟩ := tr
    unfold bumpVersion parseSemver
    rw [hsp]
    cases lvl <;> exact ⟨_, rfl⟩

theorem idPatternOk_len (s : String) (h : idPatternOk s = true) : s.data.length = 43 := by
  unfold idPatternOk at h
  simp only [Bool.and_eq_true] at h
  obtain ⟨⟨hpre, hlen⟩, _⟩ := h
  have hlen' : (s.data.drop 7).length = 36 := of_decide_eq_true hlen
  have h7 : ("bundle_".data).length = 7 := by decide
  have hple : 7 ≤ s.data.length := by
    have hle := (List.isPrefixOf_iff_prefix.mp hpre).length_le
    rw [h7] at hle
    exact hle
  rw [List.length_drop] at hlen'
  omega

theorem idPatternOk_ne_empty (s : String) (h : idPatternOk s = true) : s ≠ "" := by
  intro he
  subst he
  have := idPatternOk_len "" h
  simp at this

theorem string_append_data (s t : String) : (s ++ t).data = s.data ++ t.data := by
  cases s
  cases t
  rfl

theorem idPatternOk_prefix_false (s : String) (h : idPatternOk s = true) :
    idPatternOk ("bundle_" ++ s) = false := by
  have hlen := idPatternOk_len s h
  have h7 : ("bundle_".data).length = 7 := by decide
  have hdrop : ((("bundle_" ++ s) : String).data.drop 7).length = 43 := by
    rw [string_append_data, ← h7, List.drop_left]
    exact hlen
  unfold idPatternOk
  rw [hdrop]
  simp

theorem manifestSchemaOk_false_of_id (m : BundleManifest) (h : idPatternOk m.id = false) :
    manifestSchemaOk m = false := by
  unfold manifestSchemaOk
  rw [h]
  simp

/-! ## C9 -/

/-- C9 (confirmed): for every bundle whose manifest carries a signature
block, `bumpBundleVersion` without a `signKey` forwards no key to the
re-pack, so the bumped bundle's manifest has no signature block. -/
theorem C9_bump_loses_signature (a : Archive) (now uuid : String)
    (m : BundleManifest) (fs : List BundleFile) (lvl : BumpType)
    (changelog : Option String)
    (hu : unpackBundle a = .ok (m, fs))
    (hsig : m.signature.isSome = true) :
    ∃ b, bumpBundleVersion a lvl changelog none now uuid = .ok b ∧
      ∃ mb, lookupA b "manifest.json" = some (.mjson mb) ∧ mb.signature = none := by
  have hschema := (unpackBundle_ok_inv a m fs hu).2
  obtain ⟨v, hv⟩ := bumpVersion_isSome m.version lvl (manifestSchemaOk_version m hschema)
  simp only [bumpBundleVersion, hu, hv]
  exact ⟨_, rfl, _, lookupA_packBundle_self _ _ _, rfl⟩

/-- C9 witness: the signed scenario bundle bumped without a key, through
`C9_bump_loses_signature` at concrete inputs. -/
theorem C9_witness :
    ∃ b, bumpBundleVersion (packBundle packOpts0S now0 uuid0) BumpType.minor none none now0 uuid0 = .ok b ∧
      ∃ mb, lookupA b "manifest.json" = some (.mjson mb) ∧ mb.signature = none :=
  C9_bump_loses_signature (packBundle packOpts0S now0 uuid0) now0 uuid0
    (packedManifest packOpts0S now0 uuid0) packOpts0S.files BumpType.minor none
    (by decide) (by decide)

/-! ## C10 -/

/-- The packed id of a re-pack whose draft forwards a non-empty id. -/
theorem packedManifest_id_forwarded (opts : PackOptions) (now uuid sId : String)
    (hoid : opts.manifest.id = some sId) (hne : sId ≠ "") :
    (packedManifest opts now uuid).id = "bundle_" ++ sId := by
  show packedId opts.manifest uuid = _
  simp [packedId, hoid, hne]

/-- A packed bundle whose draft forwards a schema-valid id is schema-invalid
(double `bundle_` prefix), so its unpack raises a schema violation and its
validation fails. -/
theorem repack_schema_violation (opts : PackOptions) (now uuid : String)
    (hid : idPatternOk (packedManifest opts now uuid).id = false) (k2 : Option String) :
    unpackBundle (packBundle opts now uuid) = .error .schemaViolation ∧
    (validateBundle (packBundle opts now uuid) k2).valid = false := by
  have hfalse := manifestSchemaOk_false_of_id _ hid
  constructor
  · rw [unpackBundle_mjson _ _ (lookupA_packBundle_self opts now uuid),
      if_neg (by simp [hfalse])]
  · rw [validateBundle_mjson _ _ _ (lookupA_packBundle_self opts now uuid)]
    unfold validateParsed
    rw [if_neg (by simp [hfalse])]

/-- C10 (confirmed): re-packing a previously packed manifest — as
`signBundle` and `bumpBundleVersion` do — prefixes `bundle_` again, yielding
an id `bundle_bundle_…` that violates the schema id pattern; unpacking the
output raises a schema violation and validating it returns `valid = false`. -/
theorem C10_double_prefix (a : Archive) (now uuid : String) (m : BundleManifest)
    (fs : List BundleFile) (K : String) (lvl : BumpType)
    (changelog sk : Option String) (k2 : Option String)
    (hu : unpackBundle a = .ok (m, fs)) :
    (∃ b, signBundle a K now uuid = .ok b ∧
       (∃ mb, lookupA b "manifest.json" = some (.mjson mb) ∧
          mb.id = "bundle_" ++ m.id ∧ idPatternOk mb.id = false) ∧
       unpackBundle b = .error .schemaViolation ∧
       (validateBundle b k2).valid = false) ∧
    (∃ b2, bumpBundleVersion a lvl changelog sk now uuid = .ok b2 ∧
       (∃ mb2, lookupA b2 "manifest.json" = some (.mjson mb2) ∧
          mb2.id = "bundle_" ++ m.id ∧ idPatternOk mb2.id = false) ∧
       unpackBundle b2 = .error .schemaViolation ∧
       (validateBundle b2 k2).valid = false) := by
  have hschema := (unpackBundle_ok_inv a m fs hu).2
  have hid := manifestSchemaOk_id m hschema
  have hne := idPatternOk_ne_empty m.id hid
  have hidf := idPatternOk_prefix_false m.id hid
  constructor
  · -- signBundle
    simp only [signBundle, hu]
    refine ⟨_, rfl, ⟨_, lookupA_packBundle_self _ _ _, ?_, ?_⟩, ?_, ?_⟩
    · exact packedManifest_id_forwarded _ now uuid m.id rfl hne
    · rw [packedManifest_id_forwarded _ now uuid m.id rfl hne]
      exact hidf
    · exact (repack_schema_violation _ now uuid
        (by rw [packedManifest_id_forwarded _ now uuid m.id rfl hne]; exact hidf) k2).1
    · exact (repack_schema_violation _ now uuid
        (by rw [packedManifest_id_forwarded _ now uuid m.id rfl hne]; exact hidf) k2).2
  · -- bumpBundleVersion
    obtain ⟨v, hv⟩ := bumpVersion_isSome m.version lvl (manifestSchemaOk_version m hschema)
    simp only [bumpBundleVersion, hu, hv]
    refine ⟨_, rfl, ⟨_, lookupA_packBundle_self _ _ _, ?_, ?_⟩, ?_, ?_⟩
    · exact packedManifest_id_forwarded _ now uuid m.id rfl hne
    · rw [packedManifest_id_forwarded _ now uuid m.id rfl hne]
      exact hidf
    · exact (repack_schema_violation _ now uuid
        (by rw [packedManifest_id_forwarded _ now uuid m.id rfl hne]; exact hidf) k2).1
    · exact (repack_schema_violation _ now uuid
        (by rw [packedManifest_id_forwarded _ now uuid m.id rfl hne]; exact hidf) k2).2

/-- C10 witness: signing and bumping the scenario bundle, through
`C10_double_prefix` at concrete inputs. -/
theorem C10_witness :
    (∃ b, signBundle (packBundle packOpts0 now0 uuid0) "K" now0 uuid0 = .ok b ∧
       (∃ mb, lookupA b "manifest.json" = some (.mjson mb) ∧
          mb.id = "bundle_" ++ (packedManifest packOpts0 now0 uuid0).id ∧
          idPatternOk mb.id = false) ∧
       unpackBundle b = .error .schemaViolation ∧
       (validateBundle b none).valid = false) ∧
    (∃ b2, bumpBundleVersion (packBundle packOpts0 now0 uuid0) BumpType.minor none none now0 uuid0 = .ok b2 ∧
       (∃ mb2, lookupA b2 "manifest.json" = some (.mjson mb2) ∧
          mb2.id = "bundle_" ++ (packedManifest packOpts0 now0 uuid0).id ∧
          idPatternOk mb2.id = false) ∧
       unpackBundle b2 = .error .schemaViolation ∧
       (validateBundle b2 none).valid = false) :=
  C10_double_prefix (packBundle packOpts0 now0 uuid0) now0 uuid0
    (packedManifest packOpts0 now0 uuid0) packOpts0.files "K" BumpType.minor
    none none none (by decide)

end Ankr
